import Mathlib

/-!
Verification of the asset / state-transition core of the go-fusion repository.

The development shallowly embeds:
  * the TimeLock interval algebra (the `common` package is not part of the
    sources at hand, so it is modelled from the specification),
  * the FSN call dispatcher `handleFsnCall` (core/fsn_handler part of
    core/vm/fsncontract.go),
  * the transaction-pool pre-validator `validateFsnCallTx` (core/fsntx_pool.go),
  * the structured-storage codec, ticket ring cache and StateDB accessors
    (core/state/fsnstate.go),
and proves the claims of the accompanying specification against it.
-/

deriving instance DecidableEq for Except

/-- `common.TimeLockForever = math.MaxUint64`. -/
def TimeLockForever : Nat := 2 ^ 64 - 1

/-- `common.TimeLockNow = 0`. -/
def TimeLockNow : Nat := 0

/-- Modelled from the spec: a `common.TimeLockItem` `(StartTime, EndTime, Value)`;
`start ≤ end`, `value > 0` for valid items, both endpoints inclusive. -/
structure TimeLockItem where
  startTime : Nat
  endTime : Nat
  value : Nat
deriving DecidableEq, Repr

/-- Modelled from the spec: a `common.TimeLock` is an ordered list of items. -/
abbrev TimeLock := List TimeLockItem

/-- Modelled from the spec: "total value available at any instant t" =
Σ{value | start ≤ t ≤ end}. -/
def tlValueAt (l : TimeLock) (t : Nat) : Nat :=
  (l.map fun it => if it.startTime ≤ t ∧ t ≤ it.endTime then it.value else 0).sum

/-- Insert into a sorted list of naturals (helper for canonicalization). -/
def sortedInsertNat (x : Nat) : List Nat → List Nat
  | [] => [x]
  | y :: ys => if x ≤ y then x :: y :: ys else y :: sortedInsertNat x ys

/-- Insertion sort on naturals (helper for canonicalization). -/
def sortNat (l : List Nat) : List Nat := l.foldr sortedInsertNat []

/-- Remove consecutive duplicates of a sorted list (helper). -/
def dedupNat : List Nat → List Nat
  | [] => []
  | [x] => [x]
  | x :: y :: ys => if x = y then dedupNat (y :: ys) else x :: dedupNat (y :: ys)

/-- The points where the value function of a TimeLock can change:
each item's `start` and `end + 1`, sorted without duplicates. -/
def tlBoundaries (l : TimeLock) : List Nat :=
  dedupNat (sortNat (l.foldr (fun it acc => it.startTime :: (it.endTime + 1) :: acc) []))

/-- Piecewise-constant segments of a value function `f` cut at the given
ascending boundary list: one item per pair of consecutive boundaries. -/
def tlSegs (f : Nat → Nat) : List Nat → TimeLock
  | b₁ :: b₂ :: rest => ⟨b₁, b₂ - 1, f b₁⟩ :: tlSegs f (b₂ :: rest)
  | _ => []

/-- Merge adjacent items carrying the same value (canonical coalescing,
modelled from the spec: "coalescing contiguous intervals of equal value"). -/
def tlMergeAdj : TimeLock → TimeLock
  | [] => []
  | x :: rest =>
    match tlMergeAdj rest with
    | [] => [x]
    | y :: out =>
      if x.endTime + 1 = y.startTime ∧ x.value = y.value then
        ⟨x.startTime, y.endTime, x.value⟩ :: out
      else
        x :: y :: out

/-- Canonical TimeLock of a value function `f` with change points `bs`:
segments, zero-value items dropped, adjacent equal values coalesced. -/
def tlCanonOf (f : Nat → Nat) (bs : List Nat) : TimeLock :=
  tlMergeAdj ((tlSegs f bs).filter fun it => 0 < it.value)

/-- Modelled from the spec: `TimeLock.Add` merges two TimeLocks preserving the
pointwise total value. -/
def tlAdd (a b : TimeLock) : TimeLock :=
  tlCanonOf (fun t => tlValueAt a t + tlValueAt b t) (tlBoundaries (a ++ b))

/-- Modelled from the spec: `TimeLock.Sub a b` is the canonical TimeLock whose
pointwise value is `a − b` (callers pre-check `a ≥ b`). -/
def tlSub (a b : TimeLock) : TimeLock :=
  tlCanonOf (fun t => tlValueAt a t - tlValueAt b t) (tlBoundaries (a ++ b))

/-- Modelled from the spec: `ClearExpired(t)` drops items whose `end < t`. -/
def tlClearExpired (l : TimeLock) (ts : Nat) : TimeLock :=
  l.filter fun it => ts ≤ it.endTime

/-- Modelled from the spec: `IsEmpty` — zero items or all zero-value. -/
def tlIsEmpty (l : TimeLock) : Bool :=
  l.all fun it => it.value == 0

/-- Modelled from the spec: `IsValid` — every item has `start ≤ end`, `value > 0`. -/
def tlIsValid (l : TimeLock) : Bool :=
  l.all fun it => it.startTime ≤ it.endTime && 0 < it.value

/-- Modelled from the spec: `Cmp(a,b) ≥ 0` iff at every point the value of `a`
is at least that of `b`; checking the finitely many boundary points suffices
because both value functions are piecewise constant between them. -/
def tlGe (a b : TimeLock) : Bool :=
  (tlBoundaries (a ++ b)).all fun t => tlValueAt b t ≤ tlValueAt a t

/-- `common.NewTimeLock` of a single item. -/
def tlSingle (s e v : Nat) : TimeLock := [⟨s, e, v⟩]

/-- Modelled from the spec: `GetSpendableValue(s,e)` = min over `t ∈ [s,e]` of
the value available at `t` (0 as soon as some point is uncovered). -/
def tlGetSpendableValue (l : TimeLock) (s e : Nat) : Nat :=
  ((tlBoundaries l).filter fun b => s < b ∧ b ≤ e).foldr
    (fun b acc => min (tlValueAt l b) acc) (tlValueAt l s)

/-- Modelled from the spec: `common.GetTimeLock(value, start, end)` — the
single-interval TimeLock. -/
def tlGetTimeLock (v s e : Nat) : TimeLock := tlSingle s e v

/-- Modelled from the spec: `common.GetSurplusTimeLock(v, s, e, now)` =
`{(now, ∞, v)} − {(max(s, now), e, v)}`. -/
def tlGetSurplus (v s e ts : Nat) : TimeLock :=
  tlSub (tlSingle ts TimeLockForever v) (tlSingle (max s ts) e v)

/-- Modelled from the spec: `common.IsWholeAsset(start, end, ts)` — the
requested interval is the whole line `[now, ∞)`. -/
def tlIsWholeAsset (s e ts : Nat) : Bool :=
  s ≤ ts && e == TimeLockForever

/-! ## Data model of the FSN state (core/state/fsnstate.go)

Addresses, asset ids and hashes are 20/32-byte opaque values in the source;
they are modelled as naturals.  `common.SystemAssetID` and
`common.OwnerUSANAssetID` are two distinct reserved constants. -/

abbrev Addr := Nat
abbrev AssetID := Nat
abbrev HashV := Nat

def SystemAssetID : AssetID := 1

def OwnerUSANAssetID : AssetID := 2

/-- `common.Asset` (the fields the core reads: ID, Owner, Total, CanChange). -/
structure Asset where
  id : AssetID
  owner : Addr
  total : Nat
  canChange : Bool
deriving DecidableEq, Repr

/-- `common.Swap`. -/
structure Swap where
  id : HashV
  owner : Addr
  fromAssetID : AssetID
  fromStartTime : Nat
  fromEndTime : Nat
  minFromAmount : Nat
  toAssetID : AssetID
  toStartTime : Nat
  toEndTime : Nat
  minToAmount : Nat
  swapSize : Nat
  targes : List Addr
  time : Nat
  description : String
  notation_ : Nat
deriving DecidableEq, Repr

/-- `common.MultiSwap` (parallel leg arrays). -/
structure MultiSwap where
  id : HashV
  owner : Addr
  fromAssetID : List AssetID
  fromStartTime : List Nat
  fromEndTime : List Nat
  minFromAmount : List Nat
  toAssetID : List AssetID
  toStartTime : List Nat
  toEndTime : List Nat
  minToAmount : List Nat
  swapSize : Nat
  targes : List Addr
  time : Nat
  description : String
  notation_ : Nat
deriving DecidableEq, Repr

/-- Modelled from the spec: `crypto.Keccak256Hash(sender ‖ parent_hash)` for
ticket ids, idealized as an injective pairing (Keccak assumed collision-free). -/
def ticketID (owner : Addr) (parentHash : HashV) : Addr × HashV := (owner, parentHash)

/-- `common.Ticket` (Owner plus TicketBody). -/
structure Ticket where
  owner : Addr
  id : Addr × HashV
  height : Nat
  startTime : Nat
  expireTime : Nat
deriving DecidableEq, Repr

/-- The FSN-visible portion of the `StateDB`: per-account multi-asset balances
and time-lock balances, the notation registry, and the asset/swap/ticket/report
registries.  Registries are modelled as maps, abstracting their structured
storage encoding (verified separately by the codec theorems). -/
structure FsnState where
  balances : Addr → AssetID → Nat
  timeLocks : Addr → AssetID → TimeLock
  notations : Addr → Nat
  notationCount : Nat
  notationOwner : Nat → Addr
  assets : AssetID → Option Asset
  swaps : HashV → Option Swap
  multiSwaps : HashV → Option MultiSwap
  tickets : List Ticket
  reports : List (List Nat)

/-- `StateDB.AddBalance`. -/
def FsnState.addBalance (st : FsnState) (addr : Addr) (asset : AssetID) (v : Nat) : FsnState :=
  { st with balances := fun a i =>
      if a = addr ∧ i = asset then st.balances a i + v else st.balances a i }

/-- `StateDB.SubBalance` (every dispatcher call site pre-checks the balance,
so the natural-number truncation is never exercised). -/
def FsnState.subBalance (st : FsnState) (addr : Addr) (asset : AssetID) (v : Nat) : FsnState :=
  { st with balances := fun a i =>
      if a = addr ∧ i = asset then st.balances a i - v else st.balances a i }

/-- `StateDB.AddTimeLockBalance` / `stateObject.AddTimeLockBalance`:
no-op on an empty amount, otherwise `ClearExpired(ts)` of the sum.
(The unused `blockNumber` argument of the source is dropped.) -/
def FsnState.addTimeLockBalance (st : FsnState) (addr : Addr) (asset : AssetID)
    (amount : TimeLock) (ts : Nat) : FsnState :=
  if tlIsEmpty amount then st
  else
    { st with timeLocks := fun a i =>
        if a = addr ∧ i = asset then tlClearExpired (tlAdd (st.timeLocks a i) amount) ts
        else st.timeLocks a i }

/-- `StateDB.SubTimeLockBalance` / `stateObject.SubTimeLockBalance`. -/
def FsnState.subTimeLockBalance (st : FsnState) (addr : Addr) (asset : AssetID)
    (amount : TimeLock) (ts : Nat) : FsnState :=
  if tlIsEmpty amount then st
  else
    { st with timeLocks := fun a i =>
        if a = addr ∧ i = asset then tlClearExpired (tlSub (st.timeLocks a i) amount) ts
        else st.timeLocks a i }

/-- `StateDB.CalcNotationDisplay` (fsnstate.go); `uint64` arithmetic, hence the
final reduction modulo `2^64`. -/
def calcNotationDisplay (n : Nat) : Nat :=
  if n = 0 then n
  else (n * 100 + (((n ^^^ 8192) ^^^ 13) % 100)) % 2 ^ 64

/-- `StateDB.GenNotation`: fails if the account already has a notation,
otherwise issues `CalcNotationDisplay(count+1)` and records both lookups. -/
def FsnState.genNotation (st : FsnState) (addr : Addr) : FsnState × Except String Unit :=
  if st.notations addr ≠ 0 then
    (st, .error "Account has a notation")
  else
    let nextNota := st.notationCount + 1
    let newNota := calcNotationDisplay nextNota
    ({ st with
        notationCount := nextNota
        notationOwner := fun n => if n = newNota then addr else st.notationOwner n
        notations := fun a => if a = addr then newNota else st.notations a },
      .ok ())

/-- `StateDB.GetAddressByNotation`: absent or cleared (zero-address) records
are errors (the cleared and never-issued cases share one message here). -/
def FsnState.getAddressByNotation (st : FsnState) (n : Nat) : Except String Addr :=
  if st.notationOwner n = 0 then .error "notation does not exist"
  else .ok (st.notationOwner n)

/-- `StateDB.TransferNotation`: moves a notation between accounts, clearing a
pre-existing notation of the receiver; the sender's field is written last. -/
def FsnState.transferNotation (st : FsnState) (nota : Nat) (fromA toA : Addr) :
    FsnState × Except String Unit :=
  match st.getAddressByNotation nota with
  | .error e => (st, .error e)
  | .ok address =>
    if address ≠ fromA then (st, .error "This notation is not the from address")
    else
      let oldTo := st.notations toA
      let st1 :=
        if oldTo ≠ 0 then
          { st with notationOwner := fun n => if n = oldTo then 0 else st.notationOwner n }
        else st
      ({ st1 with
          notationOwner := fun n => if n = nota then toA else st1.notationOwner n
          notations := fun a =>
            if a = fromA then 0 else if a = toA then nota else st1.notations a },
        .ok ())

/-- `StateDB.GetAsset`: deleted/absent records are "asset not found". -/
def FsnState.getAsset (st : FsnState) (id : AssetID) : Except String Asset :=
  match st.assets id with
  | none => .error "asset not found"
  | some a => .ok a

/-- `StateDB.GenAsset`: fails when the id exists. -/
def FsnState.genAsset (st : FsnState) (a : Asset) : Except String FsnState :=
  match st.assets a.id with
  | some _ => .error "asset exists"
  | none => .ok { st with assets := fun i => if i = a.id then some a else st.assets i }

/-- `StateDB.UpdateAsset`: overwrite. -/
def FsnState.updateAsset (st : FsnState) (a : Asset) : FsnState :=
  { st with assets := fun i => if i = a.id then some a else st.assets i }

/-- `StateDB.GetSwap` ("not found" covers absent and tombstoned records). -/
def FsnState.getSwap (st : FsnState) (id : HashV) : Except String Swap :=
  match st.swaps id with
  | none => .error "swap not found"
  | some s => .ok s

/-- `StateDB.AddSwap`: requires no current record. -/
def FsnState.addSwap (st : FsnState) (s : Swap) : Except String FsnState :=
  match st.swaps s.id with
  | some _ => .error "Swap exists"
  | none => .ok { st with swaps := fun i => if i = s.id then some s else st.swaps i }

/-- `StateDB.UpdateSwap`: overwrite. -/
def FsnState.updateSwap (st : FsnState) (s : Swap) : FsnState :=
  { st with swaps := fun i => if i = s.id then some s else st.swaps i }

/-- `StateDB.RemoveSwap`: tombstones an existing record. -/
def FsnState.removeSwap (st : FsnState) (id : HashV) : Except String FsnState :=
  match st.swaps id with
  | none => .error "Swap not found"
  | some _ => .ok { st with swaps := fun i => if i = id then none else st.swaps i }

/-- `StateDB.GetMultiSwap`. -/
def FsnState.getMultiSwap (st : FsnState) (id : HashV) : Except String MultiSwap :=
  match st.multiSwaps id with
  | none => .error "multi swap not found"
  | some s => .ok s

/-- `StateDB.AddMultiSwap`. -/
def FsnState.addMultiSwap (st : FsnState) (s : MultiSwap) : Except String FsnState :=
  match st.multiSwaps s.id with
  | some _ => .error "Multi Swap exists"
  | none =>
    .ok { st with multiSwaps := fun i => if i = s.id then some s else st.multiSwaps i }

/-- `StateDB.UpdateMultiSwap`. -/
def FsnState.updateMultiSwap (st : FsnState) (s : MultiSwap) : FsnState :=
  { st with multiSwaps := fun i => if i = s.id then some s else st.multiSwaps i }

/-- `StateDB.RemoveMultiSwap`. -/
def FsnState.removeMultiSwap (st : FsnState) (id : HashV) : Except String FsnState :=
  match st.multiSwaps id with
  | none => .error "Multi Swap not found"
  | some _ =>
    .ok { st with multiSwaps := fun i => if i = id then none else st.multiSwaps i }

/-- `StateDB.IsTicketExist` via `tickets.Get(id)`. -/
def FsnState.isTicketExist (st : FsnState) (id : Addr × HashV) : Bool :=
  st.tickets.any fun t => t.id = id

/-- `StateDB.AddTicket` (modelled from the spec: "Append ticket"; the source
error path is unreachable after the `IsTicketExist` guard). -/
def FsnState.addTicket (st : FsnState) (t : Ticket) : FsnState :=
  { st with tickets := st.tickets ++ [t] }

/-- `StateDB.AddReport`: fails when the report was seen. -/
def FsnState.addReport (st : FsnState) (report : List Nat) : Except String FsnState :=
  if report ∈ st.reports then .error "AddReport error: report exists"
  else .ok { st with reports := st.reports ++ [report] }

/-! ## Decoded call parameters (common/*Param) and the call envelope

The dispatcher receives an RLP envelope `FSNCallParam{Func, Data}` and decodes
`Data` per function; the embedding works on the decoded sum type directly.
The legacy/`Ext` distinction of Make/TakeSwap is the `isExt` flag. -/

/-- `common.GenAssetParam` (the fields the core uses downstream). -/
structure GenAssetParam where
  total : Nat
  canChange : Bool
deriving DecidableEq, Repr

/-- `common.SendAssetParam`. -/
structure SendAssetParam where
  assetID : AssetID
  toAddr : Addr
  value : Nat
deriving DecidableEq, Repr

/-- `common.TimeLockType`. -/
inductive TimeLockType where
  | assetToTimeLock
  | timeLockToTimeLock
  | timeLockToAsset
  | smartTransfer
deriving DecidableEq, Repr

/-- `common.TimeLockParam`. -/
structure TimeLockParam where
  typ : TimeLockType
  assetID : AssetID
  toAddr : Addr
  startTime : Nat
  endTime : Nat
  value : Nat
deriving DecidableEq, Repr

/-- `common.BuyTicketParam`. -/
structure BuyTicketParam where
  start : Nat
  endTime : Nat
deriving DecidableEq, Repr

/-- `common.AssetValueChangeExParam`. -/
structure AssetValueChangeExParam where
  assetID : AssetID
  toAddr : Addr
  value : Nat
  isInc : Bool
deriving DecidableEq, Repr

/-- `common.MakeSwapParam`. -/
structure MakeSwapParam where
  fromAssetID : AssetID
  fromStartTime : Nat
  fromEndTime : Nat
  minFromAmount : Nat
  toAssetID : AssetID
  toStartTime : Nat
  toEndTime : Nat
  minToAmount : Nat
  swapSize : Nat
  targes : List Addr
  time : Nat
  description : String
deriving DecidableEq, Repr

/-- `common.RecallSwapParam`. -/
structure RecallSwapParam where
  swapID : HashV
deriving DecidableEq, Repr

/-- `common.TakeSwapParam`. -/
structure TakeSwapParam where
  swapID : HashV
  size : Nat
deriving DecidableEq, Repr

/-- `common.MakeMultiSwapParam` (parallel leg arrays). -/
structure MakeMultiSwapParam where
  fromAssetID : List AssetID
  fromStartTime : List Nat
  fromEndTime : List Nat
  minFromAmount : List Nat
  toAssetID : List AssetID
  toStartTime : List Nat
  toEndTime : List Nat
  minToAmount : List Nat
  swapSize : Nat
  targes : List Addr
  time : Nat
  description : String
deriving DecidableEq, Repr

/-- `common.RecallMultiSwapParam`. -/
structure RecallMultiSwapParam where
  swapID : HashV
deriving DecidableEq, Repr

/-- `common.TakeMultiSwapParam`. -/
structure TakeMultiSwapParam where
  swapID : HashV
  size : Nat
deriving DecidableEq, Repr

/-- The decoded FSN call (`common.FSNCallParam` with its per-function data). -/
inductive FsnCall where
  | genNotation
  | genAsset (p : GenAssetParam)
  | sendAsset (p : SendAssetParam)
  | timeLock (p : TimeLockParam)
  | buyTicket (p : BuyTicketParam)
  | assetValueChange (p : AssetValueChangeExParam)
  | emptyFunc
  | makeSwap (isExt : Bool) (p : MakeSwapParam)
  | recallSwap (p : RecallSwapParam)
  | takeSwap (isExt : Bool) (p : TakeSwapParam)
  | recallMultiSwap (p : RecallMultiSwapParam)
  | makeMultiSwap (p : MakeMultiSwapParam)
  | takeMultiSwap (p : TakeMultiSwapParam)
  | reportIllegal (report : List Nat)
deriving DecidableEq, Repr

/-- The wire tag of a call (`common.FSNCallFunc` values, spec §6). -/
def FsnCall.tag : FsnCall → Nat
  | .genNotation => 1
  | .genAsset _ => 2
  | .sendAsset _ => 3
  | .timeLock _ => 4
  | .buyTicket _ => 5
  | .assetValueChange _ => 6
  | .emptyFunc => 7
  | .makeSwap false _ => 8
  | .recallSwap _ => 9
  | .takeSwap false _ => 10
  | .recallMultiSwap _ => 11
  | .makeMultiSwap _ => 12
  | .takeMultiSwap _ => 13
  | .reportIllegal _ => 14
  | .makeSwap true _ => 15
  | .takeSwap true _ => 16

/-- Modelled from the spec: `common.CheckSwapTargets` — an empty target list
makes the swap public, a non-empty one restricts takers to its members. -/
def checkSwapTargets (targes : List Addr) (sender : Addr) : Except String Unit :=
  if targes = [] ∨ sender ∈ targes then .ok () else .error "swap taker is not a valid target"

/-- The functions of packages absent from the sources (`common`, `params`,
`consensus/datong`), passed as an explicit environment.  The parameter
`Check` methods are kept abstract; fork gates, fees and the ticket price are
height-indexed functions; `parentHash` stands for `GetHash(height-1)` and
`uniqueHash` for `GetUniqueHashFromMessage(msg)` of the current transaction. -/
structure FsnEnv where
  ticketPrice : Nat → Nat
  isHardFork2 : Nat → Bool
  isSmartTransferEnabled : Nat → Bool
  isPrivateSwapCheckingEnabled : Nat → Bool
  isMultipleMiningCheckingEnabled : Nat → Bool
  parentHash : HashV
  uniqueHash : HashV
  genAssetCheck : Nat → GenAssetParam → Bool
  sendAssetCheck : Nat → SendAssetParam → Bool
  timeLockCheck : Nat → Nat → TimeLockParam → Bool
  buyTicketCheck : Nat → Nat → BuyTicketParam → Bool
  assetValueChangeCheck : Nat → AssetValueChangeExParam → Bool
  makeSwapCheck : Nat → Nat → MakeSwapParam → Bool
  recallSwapCheck : Nat → Swap → RecallSwapParam → Bool
  takeSwapCheck : Nat → Swap → Nat → TakeSwapParam → Bool
  makeMultiSwapCheck : Nat → Nat → MakeMultiSwapParam → Bool
  recallMultiSwapCheck : Nat → MultiSwap → RecallMultiSwapParam → Bool
  takeMultiSwapCheck : Nat → MultiSwap → Nat → TakeMultiSwapParam → Bool
  checkAddingReport : FsnState → List Nat → Option Nat → Except String (Nat × Nat)
  processReport : Nat → Nat → Addr → FsnState → Nat → Nat → FsnState × List (Addr × HashV)
  getFsnCallFee : Nat → Nat

/-- The swap record built by the MakeSwap case of `handleFsnCall`. -/
def mkSwapRecord (id : HashV) (owner : Addr) (p : MakeSwapParam) (nota : Nat) : Swap :=
  { id := id, owner := owner
    fromAssetID := p.fromAssetID, fromStartTime := p.fromStartTime
    fromEndTime := p.fromEndTime, minFromAmount := p.minFromAmount
    toAssetID := p.toAssetID, toStartTime := p.toStartTime
    toEndTime := p.toEndTime, minToAmount := p.minToAmount
    swapSize := p.swapSize, targes := p.targes, time := p.time
    description := p.description, notation_ := nota }

/-- The multi-swap record built by the MakeMultiSwap case of `handleFsnCall`. -/
def mkMultiSwapRecord (id : HashV) (owner : Addr) (p : MakeMultiSwapParam) (nota : Nat) :
    MultiSwap :=
  { id := id, owner := owner
    fromAssetID := p.fromAssetID, fromStartTime := p.fromStartTime
    fromEndTime := p.fromEndTime, minFromAmount := p.minFromAmount
    toAssetID := p.toAssetID, toStartTime := p.toStartTime
    toEndTime := p.toEndTime, minToAmount := p.minToAmount
    swapSize := p.swapSize, targes := p.targes, time := p.time
    description := p.description, notation_ := nota }

/-! ## The state-transition dispatcher `handleFsnCall`

Embeds `StateTransition.handleFsnCall` case by case.  `height` is the block
number, `ts` the parent block's time (`evm.Context.ParentTime`), and `now` the
local wall clock (`time.Now()`), which the source consults in exactly one
place: the TimeLockToAsset start-time check.  Log emission (`addLog`) has no
further observable effect and is not modelled; on error the state mutated so
far is returned, mirroring the source (the journal revert is outside). -/

def handleFsnCall (env : FsnEnv) (height ts now : Nat) (sender : Addr) (st : FsnState) :
    FsnCall → FsnState × Except String Unit
  | .genNotation => st.genNotation sender
  | .genAsset p =>
    if ¬ env.genAssetCheck height p then (st, .error "GenAssetParam check error")
    else
      let asset : Asset :=
        { id := env.uniqueHash, owner := sender, total := p.total, canChange := p.canChange }
      match st.genAsset asset with
      | .error _ => (st, .error "unable to gen asset")
      | .ok st1 => (st1.addBalance sender asset.id asset.total, .ok ())
  | .sendAsset p =>
    if ¬ env.sendAssetCheck height p then (st, .error "SendAssetParam check error")
    else if st.balances sender p.assetID < p.value then (st, .error "not enough asset")
    else
      ((st.subBalance sender p.assetID p.value).addBalance p.toAddr p.assetID p.value, .ok ())
  | .timeLock p0 =>
    if p0.typ = .timeLockToAsset ∧ p0.startTime > now then
      (st, .error "Start time must be less than now")
    else
      let p := if p0.typ = .timeLockToAsset then { p0 with endTime := TimeLockForever } else p0
      if ¬ env.timeLockCheck height ts p then (st, .error "TimeLockParam check error")
      else
        let start := max p.startTime ts
        let needValue := tlSingle start p.endTime p.value
        if ¬ tlIsValid needValue then (st, .error "time lock is invalid")
        else
          match p.typ with
          | .assetToTimeLock =>
            if st.balances sender p.assetID < p.value then (st, .error "not enough asset")
            else
              let st1 := st.subBalance sender p.assetID p.value
              let totalValue := tlSingle ts TimeLockForever p.value
              if sender = p.toAddr then
                (st1.addTimeLockBalance p.toAddr p.assetID totalValue ts, .ok ())
              else
                let surplusValue := tlSub totalValue needValue
                let st2 :=
                  if ¬ tlIsEmpty surplusValue then
                    st1.addTimeLockBalance sender p.assetID surplusValue ts
                  else st1
                (st2.addTimeLockBalance p.toAddr p.assetID needValue ts, .ok ())
          | .timeLockToTimeLock =>
            if ¬ tlGe (st.timeLocks sender p.assetID) needValue then
              (st, .error "not enough time lock balance")
            else
              ((st.subTimeLockBalance sender p.assetID needValue ts).addTimeLockBalance
                  p.toAddr p.assetID needValue ts,
                .ok ())
          | .timeLockToAsset =>
            if ¬ tlGe (st.timeLocks sender p.assetID) needValue then
              (st, .error "not enough time lock balance")
            else
              ((st.subTimeLockBalance sender p.assetID needValue ts).addBalance
                  p.toAddr p.assetID p.value,
                .ok ())
          | .smartTransfer =>
            if ¬ env.isSmartTransferEnabled height then (st, .error "SendTimeLock not enabled")
            else
              let finish : FsnState → FsnState × Except String Unit := fun st' =>
                if ¬ tlIsWholeAsset start p.endTime ts then
                  (st'.addTimeLockBalance p.toAddr p.assetID needValue ts, .ok ())
                else (st'.addBalance p.toAddr p.assetID p.value, .ok ())
              let timeLockBalance := st.timeLocks sender p.assetID
              if ¬ tlGe timeLockBalance needValue then
                let timeLockValue := tlGetSpendableValue timeLockBalance start p.endTime
                let assetBalance := st.balances sender p.assetID
                if timeLockValue + assetBalance < p.value then (st, .error "not enough balance")
                else
                  let st1 :=
                    if 0 < timeLockValue then
                      st.subTimeLockBalance sender p.assetID
                        (tlGetTimeLock timeLockValue start p.endTime) ts
                    else st
                  let useAssetAmount := p.value - timeLockValue
                  let st2 := st1.subBalance sender p.assetID useAssetAmount
                  let surplus := tlGetSurplus useAssetAmount start p.endTime ts
                  let st3 :=
                    if ¬ tlIsEmpty surplus then
                      st2.addTimeLockBalance sender p.assetID surplus ts
                    else st2
                  finish st3
              else finish (st.subTimeLockBalance sender p.assetID needValue ts)
  | .buyTicket p =>
    let id := ticketID sender env.parentHash
    if st.isTicketExist id then (st, .error "Ticket already exist")
    else
      let checkOk :=
        if env.isHardFork2 height then env.buyTicketCheck height ts p
        else env.buyTicketCheck height 0 p
      if ¬ checkOk then (st, .error "BuyTicketParam check error")
      else
        let value := env.ticketPrice height
        let needValue := tlSingle (max p.start ts) p.endTime value
        if ¬ tlIsValid needValue then (st, .error "time lock is invalid")
        else
          let ticket : Ticket :=
            { owner := sender, id := id, height := height
              startTime := p.start, expireTime := p.endTime }
          if ¬ tlGe (st.timeLocks sender SystemAssetID) needValue then
            if st.balances sender SystemAssetID < value then
              (st, .error "not enough time lock or asset balance")
            else
              let st1 := st.subBalance sender SystemAssetID value
              let surplusValue := tlSub (tlSingle ts TimeLockForever value) needValue
              let st2 :=
                if ¬ tlIsEmpty surplusValue then
                  st1.addTimeLockBalance sender SystemAssetID surplusValue ts
                else st1
              (st2.addTicket ticket, .ok ())
          else
            ((st.subTimeLockBalance sender SystemAssetID needValue ts).addTicket ticket, .ok ())
  | .assetValueChange p =>
    if ¬ env.assetValueChangeCheck height p then
      (st, .error "AssetValueChangeExParam check error")
    else
      match st.getAsset p.assetID with
      | .error _ => (st, .error "asset not found")
      | .ok asset =>
        if ¬ asset.canChange then (st, .error "asset can't inc or dec")
        else if asset.owner ≠ sender then (st, .error "can only be changed by owner")
        else if asset.owner ≠ p.toAddr ∧ ¬ p.isInc then
          (st, .error "decrement can only happen to asset's own account")
        else if p.isInc then
          ((st.addBalance p.toAddr p.assetID p.value).updateAsset
              { asset with total := asset.total + p.value },
            .ok ())
        else if st.balances p.toAddr p.assetID < p.value then (st, .error "not enough asset")
        else
          ((st.subBalance p.toAddr p.assetID p.value).updateAsset
              { asset with total := asset.total - p.value },
            .ok ())
  | .emptyFunc => (st, .error "Unsupported")
  | .makeSwap isExt p0 =>
    let nota := st.notations sender
    let swapId := env.uniqueHash
    match st.getSwap swapId with
    | .ok _ => (st, .error "Swap already exist")
    | .error _ =>
      if ¬ env.makeSwapCheck height ts p0 then (st, .error "MakeSwapParam check error")
      else
        match st.getAsset p0.toAssetID with
        | .error _ => (st, .error "ToAssetID's asset not found")
        | .ok _ =>
          if p0.fromAssetID = OwnerUSANAssetID then
            if nota = 0 then (st, .error "the from address does not have a notation")
            else
              let p := { p0 with
                minFromAmount := 1, swapSize := 1
                fromStartTime := TimeLockNow, fromEndTime := TimeLockForever }
              match st.addSwap (mkSwapRecord swapId sender p nota) with
              | .error _ => (st, .error "System error can't add swap")
              | .ok st1 => (st1, .ok ())
          else
            let total := p0.minFromAmount * p0.swapSize
            let start := p0.fromStartTime
            let endT := p0.fromEndTime
            let useAsset := start = TimeLockNow ∧ endT = TimeLockForever
            let needValue := tlSingle (max start ts) endT total
            if ¬ useAsset ∧ ¬ tlIsValid needValue then (st, .error "time lock is invalid")
            else
              let swap := mkSwapRecord swapId sender p0 nota
              if useAsset then
                if st.balances sender p0.fromAssetID < total then
                  (st, .error "not enough from asset")
                else
                  match st.addSwap swap with
                  | .error _ => (st, .error "System error can't add swap")
                  | .ok st1 => (st1.subBalance sender p0.fromAssetID total, .ok ())
              else
                if ¬ tlGe (st.timeLocks sender p0.fromAssetID) needValue then
                  if ¬ isExt then (st, .error "not enough time lock balance")
                  else if st.balances sender p0.fromAssetID < total then
                    (st, .error "not enough time lock or asset balance")
                  else
                    let st1 := st.subBalance sender p0.fromAssetID total
                    let st2 := st1.addTimeLockBalance sender p0.fromAssetID
                      (tlSingle ts TimeLockForever total) ts
                    match st2.addSwap swap with
                    | .error _ => (st2, .error "System error can't add swap")
                    | .ok st3 =>
                      (st3.subTimeLockBalance sender p0.fromAssetID needValue ts, .ok ())
                else
                  match st.addSwap swap with
                  | .error _ => (st, .error "System error can't add swap")
                  | .ok st1 =>
                    (st1.subTimeLockBalance sender p0.fromAssetID needValue ts, .ok ())
  | .recallSwap p =>
    match st.getSwap p.swapID with
    | .error _ => (st, .error "Swap not found")
    | .ok swap =>
      if swap.owner ≠ sender then (st, .error "Must be swap onwer can recall")
      else if ¬ env.recallSwapCheck height swap p then
        (st, .error "RecallSwapParam check error")
      else
        match st.removeSwap swap.id with
        | .error _ => (st, .error "Unable to remove swap")
        | .ok st1 =>
          if swap.fromAssetID ≠ OwnerUSANAssetID then
            let total := swap.minFromAmount * swap.swapSize
            let start := swap.fromStartTime
            let endT := swap.fromEndTime
            if start = TimeLockNow ∧ endT = TimeLockForever then
              (st1.addBalance sender swap.fromAssetID total, .ok ())
            else
              let needValue := tlSingle (max start ts) endT total
              if tlIsValid needValue then
                (st1.addTimeLockBalance sender swap.fromAssetID needValue ts, .ok ())
              else (st1, .ok ())
          else (st1, .ok ())
  | .takeSwap isExt p =>
    match st.getSwap p.swapID with
    | .error _ => (st, .error "Swap not found")
    | .ok swap =>
      if ¬ env.takeSwapCheck height swap ts p then (st, .error "TakeSwapParam check error")
      else
        match
          (if env.isPrivateSwapCheckingEnabled height then checkSwapTargets swap.targes sender
            else .ok ()) with
        | .error e => (st, .error e)
        | .ok _ =>
          if swap.fromAssetID = OwnerUSANAssetID ∧
              (st.notations swap.owner = 0 ∨ st.notations swap.owner ≠ swap.notation_) then
            (st, .error "notation in swap is no longer valid")
          else
            let usanSwap := swap.fromAssetID = OwnerUSANAssetID
            let fromTotal := swap.minFromAmount * p.size
            let fromUseAsset :=
              swap.fromStartTime = TimeLockNow ∧ swap.fromEndTime = TimeLockForever
            let toTotal := swap.minToAmount * p.size
            let toUseAsset :=
              swap.toStartTime = TimeLockNow ∧ swap.toEndTime = TimeLockForever
            let fromNeedValue :=
              tlSingle (max swap.fromStartTime ts) swap.fromEndTime fromTotal
            let toNeedValue := tlSingle (max swap.toStartTime ts) swap.toEndTime toTotal
            let funded : Except String FsnState :=
              if toUseAsset then
                if st.balances sender swap.toAssetID < toTotal then
                  .error "not enough from asset"
                else .ok st
              else
                if tlIsValid toNeedValue ∧
                    ¬ tlGe (st.timeLocks sender swap.toAssetID) toNeedValue then
                  if ¬ isExt then .error "not enough time lock balance"
                  else if st.balances sender swap.toAssetID < toTotal then
                    .error "not enough time lock or asset balance"
                  else
                    .ok ((st.subBalance sender swap.toAssetID toTotal).addTimeLockBalance
                      sender swap.toAssetID (tlSingle ts TimeLockForever toTotal) ts)
                else .ok st
            match funded with
            | .error e => (st, .error e)
            | .ok st1 =>
              let sized : Except String FsnState :=
                if swap.swapSize = p.size then
                  match st1.removeSwap swap.id with
                  | .error _ => .error "System Error"
                  | .ok st2 => .ok st2
                else .ok (st1.updateSwap { swap with swapSize := swap.swapSize - p.size })
              match sized with
              | .error e => (st1, .error e)
              | .ok st2 =>
                let st3 :=
                  if toUseAsset then
                    (st2.addBalance swap.owner swap.toAssetID toTotal).subBalance
                      sender swap.toAssetID toTotal
                  else if tlIsValid toNeedValue then
                    (st2.addTimeLockBalance swap.owner swap.toAssetID toNeedValue
                        ts).subTimeLockBalance sender swap.toAssetID toNeedValue ts
                  else st2
                if usanSwap then
                  match st3.transferNotation swap.notation_ swap.owner sender with
                  | (st4, .error e) => (st4, .error e)
                  | (st4, .ok _) => (st4, .ok ())
                else
                  if fromUseAsset then
                    (st3.addBalance sender swap.fromAssetID fromTotal, .ok ())
                  else if tlIsValid fromNeedValue then
                    (st3.addTimeLockBalance sender swap.fromAssetID fromNeedValue ts, .ok ())
                  else (st3, .ok ())
  | .recallMultiSwap p =>
    match st.getMultiSwap p.swapID with
    | .error _ => (st, .error "Swap not found")
    | .ok swap =>
      if swap.owner ≠ sender then (st, .error "Must be swap onwer can recall")
      else if ¬ env.recallMultiSwapCheck height swap p then
        (st, .error "RecallMultiSwapParam check error")
      else
        match st.removeMultiSwap swap.id with
        | .error _ => (st, .error "Unable to remove swap")
        | .ok st1 =>
          let refunded := (List.range swap.fromAssetID.length).foldl
            (fun (acc : FsnState) i =>
              let total := swap.minFromAmount.getD i 0 * swap.swapSize
              let start := swap.fromStartTime.getD i 0
              let endT := swap.fromEndTime.getD i 0
              if start = TimeLockNow ∧ endT = TimeLockForever then
                acc.addBalance sender (swap.fromAssetID.getD i 0) total
              else
                let needValue := tlSingle (max start ts) endT total
                if tlIsValid needValue then
                  acc.addTimeLockBalance sender (swap.fromAssetID.getD i 0) needValue ts
                else acc)
            st1
          (refunded, .ok ())
  | .makeMultiSwap p =>
    let nota := st.notations sender
    let swapID := env.uniqueHash
    match st.getSwap swapID with
    | .ok _ => (st, .error "Swap already exist")
    | .error _ =>
      if ¬ env.makeMultiSwapCheck height ts p then (st, .error "MakeMultiSwapParam check error")
      else if p.toAssetID.any (fun a => ¬ (st.assets a).isSome) then
        (st, .error "ToAssetID's asset not found")
      else
        let ln := p.fromAssetID.length
        let total := fun i => p.minFromAmount.getD i 0 * p.swapSize
        let useAsset := fun i =>
          p.fromStartTime.getD i 0 = TimeLockNow ∧ p.fromEndTime.getD i 0 = TimeLockForever
        let needValue := fun i =>
          tlSingle (max (p.fromStartTime.getD i 0) ts) (p.fromEndTime.getD i 0) (total i)
        if (List.range ln).any (fun i => ¬ useAsset i ∧ ¬ tlIsValid (needValue i)) then
          (st, .error "time lock is invalid")
        else
          let swap := mkMultiSwapRecord swapID sender p nota
          let checkPhase : Except String ((AssetID → Nat) × (AssetID → TimeLock)) :=
            (List.range ln).foldlM
              (fun (acc : (AssetID → Nat) × (AssetID → TimeLock)) i =>
                let a := p.fromAssetID.getD i 0
                let balance := acc.1 a
                let timeLockBalance := acc.2 a
                if useAsset i then
                  if balance < total i then .error "not enough from asset"
                  else .ok (fun x => if x = a then balance - total i else acc.1 x, acc.2)
                else
                  if ¬ tlGe timeLockBalance (needValue i) then
                    if balance < total i then .error "not enough time lock or asset balance"
                    else
                      let tl2 := tlSub
                        (tlAdd timeLockBalance (tlSingle ts TimeLockForever (total i)))
                        (needValue i)
                      .ok (fun x => if x = a then balance - total i else acc.1 x,
                        fun x => if x = a then tl2 else acc.2 x)
                  else
                    .ok (acc.1,
                      fun x => if x = a then tlSub timeLockBalance (needValue i) else acc.2 x))
              (fun a => st.balances sender a, fun a => st.timeLocks sender a)
          match checkPhase with
          | .error e => (st, .error e)
          | .ok _ =>
            let deduct := (List.range ln).foldl
              (fun (acc : FsnState × Option String) i =>
                match acc.2 with
                | some _ => acc
                | none =>
                  let stAcc := acc.1
                  let a := p.fromAssetID.getD i 0
                  if useAsset i then
                    if stAcc.balances sender a < total i then
                      (stAcc, some "not enough from asset")
                    else (stAcc.subBalance sender a (total i), none)
                  else
                    if ¬ tlGe (stAcc.timeLocks sender a) (needValue i) then
                      if stAcc.balances sender a < total i then
                        (stAcc, some "not enough time lock or asset balance")
                      else
                        let st1 := (stAcc.subBalance sender a (total i)).addTimeLockBalance
                          sender a (tlSingle ts TimeLockForever (total i)) ts
                        (st1.subTimeLockBalance sender a (needValue i) ts, none)
                    else (stAcc.subTimeLockBalance sender a (needValue i) ts, none))
              (st, none)
            match deduct with
            | (stD, some e) => (stD, .error e)
            | (stD, none) =>
              match stD.addMultiSwap swap with
              | .error _ => (stD, .error "System error can't add swap")
              | .ok stE => (stE, .ok ())
  | .takeMultiSwap p =>
    match st.getMultiSwap p.swapID with
    | .error _ => (st, .error "Swap not found")
    | .ok swap =>
      if ¬ env.takeMultiSwapCheck height swap ts p then
        (st, .error "TakeMultiSwapParam check error")
      else
        match
          (if env.isPrivateSwapCheckingEnabled height then checkSwapTargets swap.targes sender
            else .ok ()) with
        | .error e => (st, .error e)
        | .ok _ =>
          let lnFrom := swap.fromAssetID.length
          let fromTotal := fun i => swap.minFromAmount.getD i 0 * p.size
          let fromUseAsset := fun i =>
            swap.fromStartTime.getD i 0 = TimeLockNow ∧
              swap.fromEndTime.getD i 0 = TimeLockForever
          let fromNeedValue := fun i =>
            tlSingle (max (swap.fromStartTime.getD i 0) ts) (swap.fromEndTime.getD i 0)
              (fromTotal i)
          let lnTo := swap.toAssetID.length
          let toTotal := fun i => swap.minToAmount.getD i 0 * p.size
          let toUseAsset := fun i =>
            swap.toStartTime.getD i 0 = TimeLockNow ∧
              swap.toEndTime.getD i 0 = TimeLockForever
          let toNeedValue := fun i =>
            tlSingle (max (swap.toStartTime.getD i 0) ts) (swap.toEndTime.getD i 0)
              (toTotal i)
          let checkPhase : Except String ((AssetID → Nat) × (AssetID → TimeLock)) :=
            (List.range lnTo).foldlM
              (fun (acc : (AssetID → Nat) × (AssetID → TimeLock)) i =>
                let a := swap.toAssetID.getD i 0
                let balance := acc.1 a
                let timeLockBalance := acc.2 a
                if toUseAsset i then
                  if balance < toTotal i then .error "not enough from asset"
                  else .ok (fun x => if x = a then balance - toTotal i else acc.1 x, acc.2)
                else
                  if ¬ tlIsValid (toNeedValue i) then .ok acc
                  else if ¬ tlGe timeLockBalance (toNeedValue i) then
                    if balance < toTotal i then .error "not enough time lock or asset balance"
                    else
                      let tl2 := tlSub
                        (tlAdd timeLockBalance (tlSingle ts TimeLockForever (toTotal i)))
                        (toNeedValue i)
                      .ok (fun x => if x = a then balance - toTotal i else acc.1 x,
                        fun x => if x = a then tl2 else acc.2 x)
                  else
                    .ok (acc.1,
                      fun x => if x = a then tlSub timeLockBalance (toNeedValue i) else acc.2 x))
              (fun a => st.balances sender a, fun a => st.timeLocks sender a)
          match checkPhase with
          | .error e => (st, .error e)
          | .ok _ =>
            let deduct := (List.range lnTo).foldl
              (fun (acc : FsnState × Option String) i =>
                match acc.2 with
                | some _ => acc
                | none =>
                  let stAcc := acc.1
                  let a := swap.toAssetID.getD i 0
                  if toUseAsset i then
                    if stAcc.balances sender a < toTotal i then
                      (stAcc, some "not enough from asset")
                    else (stAcc.subBalance sender a (toTotal i), none)
                  else
                    if ¬ tlIsValid (toNeedValue i) then (stAcc, none)
                    else if ¬ tlGe (stAcc.timeLocks sender a) (toNeedValue i) then
                      if stAcc.balances sender a < toTotal i then
                        (stAcc, some "not enough time lock or asset balance")
                      else
                        let st1 := (stAcc.subBalance sender a (toTotal i)).addTimeLockBalance
                          sender a (tlSingle ts TimeLockForever (toTotal i)) ts
                        (st1.subTimeLockBalance sender a (toNeedValue i) ts, none)
                    else (stAcc.subTimeLockBalance sender a (toNeedValue i) ts, none))
              (st, none)
            match deduct with
            | (stD, some e) => (stD, .error e)
            | (stD, none) =>
              let sized : Except String FsnState :=
                if swap.swapSize = p.size then
                  match stD.removeMultiSwap swap.id with
                  | .error _ => .error "System Error"
                  | .ok st2 => .ok st2
                else .ok (stD.updateMultiSwap { swap with swapSize := swap.swapSize - p.size })
              match sized with
              | .error e => (stD, .error e)
              | .ok st2 =>
                let st3 := (List.range lnTo).foldl
                  (fun (acc : FsnState) i =>
                    if toUseAsset i then
                      acc.addBalance swap.owner (swap.toAssetID.getD i 0) (toTotal i)
                    else if tlIsValid (toNeedValue i) then
                      acc.addTimeLockBalance swap.owner (swap.toAssetID.getD i 0)
                        (toNeedValue i) ts
                    else acc)
                  st2
                let st4 := (List.range lnFrom).foldl
                  (fun (acc : FsnState) i =>
                    if fromUseAsset i then
                      acc.addBalance sender (swap.fromAssetID.getD i 0) (fromTotal i)
                    else if tlIsValid (fromNeedValue i) then
                      acc.addTimeLockBalance sender (swap.fromAssetID.getD i 0)
                        (fromNeedValue i) ts
                    else acc)
                  st3
                (st4, .ok ())
  | .reportIllegal report =>
    if ¬ env.isMultipleMiningCheckingEnabled height then (st, .error "report not enabled")
    else
      match env.checkAddingReport st report (some height) with
      | .error e => (st, .error e)
      | .ok (h1, h2) =>
        match st.addReport report with
        | .error e => (st, .error e)
        | .ok st1 =>
          let (st2, _delTickets) := env.processReport h1 h2 sender st1 height ts
          (st2, .ok ())

/-! ## The TxPool pre-validator `validateFsnCallTx`

Embeds `TxPool.validateFsnCallTx`.  `currNumber`/`currTime` are the current
chain head's number and time, `now` the wall clock (`time.Now()`, which the
pool uses as its `timestamp`), `reportDupInPool` the outcome of the
pool-duplicate scan for ReportIllegal.  The per-function switch, which either
errors or determines `fsnValue`, is split into `fsnPreCheck`; the trailing
gas/fee/value balance check is `validateFsnCallTx` itself. -/

/-- `common.BigMaxUint64`, the pseudo-height the pool passes to all `Check`s. -/
def BigMaxUint64 : Nat := 2 ^ 64 - 1

def fsnPreCheck (env : FsnEnv) (currNumber currTime now : Nat) (reportDupInPool : Bool)
    (sender : Addr) (st : FsnState) : FsnCall → Except String Nat
  | .genNotation =>
    if st.notations sender ≠ 0 then .error "Account has a notation" else .ok 0
  | .genAsset p =>
    if ¬ env.genAssetCheck BigMaxUint64 p then .error "GenAssetParam check error"
    else
      match st.assets env.uniqueHash with
      | some _ => .error "asset exists"
      | none => .ok 0
  | .sendAsset p =>
    if ¬ env.sendAssetCheck BigMaxUint64 p then .error "SendAssetParam check error"
    else if p.assetID = SystemAssetID then .ok p.value
    else if st.balances sender p.assetID < p.value then .error "not enough asset"
    else .ok 0
  | .timeLock p0 =>
    if p0.typ = .timeLockToAsset ∧ p0.startTime > now then
      .error "TimeLockToAsset: Start time must be less than now"
    else
      let p := if p0.typ = .timeLockToAsset then { p0 with endTime := TimeLockForever } else p0
      if p.toAddr = 0 then .error "receiver address must be set and not zero address"
      else if ¬ env.timeLockCheck BigMaxUint64 now p then .error "TimeLockParam check error"
      else
        let start := max p.startTime now
        let needValue := tlSingle start p.endTime p.value
        if ¬ tlIsValid needValue then .error "time lock is invalid"
        else
          match p.typ with
          | .assetToTimeLock =>
            if p.assetID = SystemAssetID then .ok p.value
            else if st.balances sender p.assetID < p.value then
              .error "AssetToTimeLock: not enough asset"
            else .ok 0
          | .timeLockToTimeLock =>
            if ¬ tlGe (st.timeLocks sender p.assetID) needValue then
              .error "TimeLockToTimeLock: not enough time lock balance"
            else .ok 0
          | .timeLockToAsset =>
            if ¬ tlGe (st.timeLocks sender p.assetID) needValue then
              .error "TimeLockToAsset: not enough time lock balance"
            else .ok 0
          | .smartTransfer =>
            if ¬ env.isSmartTransferEnabled (currNumber + 1) then
              .error "SendTimeLock not enabled"
            else
              let timeLockBalance := st.timeLocks sender p.assetID
              if ¬ tlGe timeLockBalance needValue then
                let timeLockValue := tlGetSpendableValue timeLockBalance start p.endTime
                let assetBalance := st.balances sender p.assetID
                if timeLockValue + assetBalance < p.value then
                  .error "SendTimeLock: not enough balance"
                else .ok (p.value - timeLockValue)
              else .ok 0
  | .buyTicket p =>
    if ¬ env.buyTicketCheck BigMaxUint64 currTime p then .error "BuyTicketParam check error"
    else
      let value := env.ticketPrice BigMaxUint64
      let needValue := tlSingle (max p.start now) p.endTime value
      if ¬ tlIsValid needValue then .error "time lock is invalid"
      else if ¬ tlGe (st.timeLocks sender SystemAssetID) needValue then .ok value
      else .ok 0
  | .assetValueChange p =>
    if ¬ env.assetValueChangeCheck BigMaxUint64 p then
      .error "AssetValueChangeExParam check error"
    else
      match st.getAsset p.assetID with
      | .error _ => .error "asset not found"
      | .ok asset =>
        if ¬ asset.canChange then .error "asset can't inc or dec"
        else if asset.owner ≠ sender then .error "can only be changed by owner"
        else if asset.owner ≠ p.toAddr ∧ ¬ p.isInc then
          .error "decrement can only happen to asset's own account"
        else if ¬ p.isInc ∧ st.balances p.toAddr p.assetID < p.value then
          .error "not enough asset"
        else .ok 0
  | .emptyFunc => .ok 0
  | .makeSwap isExt p =>
    match st.getSwap env.uniqueHash with
    | .ok _ => .error "MakeSwap: Swap already exist"
    | .error _ =>
      if ¬ env.makeSwapCheck BigMaxUint64 now p then .error "MakeSwapParam check error"
      else
        match st.getAsset p.toAssetID with
        | .error _ => .error "ToAssetID asset not found"
        | .ok _ =>
          if p.fromAssetID = OwnerUSANAssetID then
            if st.notations sender = 0 then .error "the from address does not have a notation"
            else .ok 0
          else
            let total := p.minFromAmount * p.swapSize
            if p.fromStartTime = TimeLockNow ∧ p.fromEndTime = TimeLockForever then
              if p.fromAssetID = SystemAssetID then .ok total
              else if st.balances sender p.fromAssetID < total then
                .error "not enough from asset"
              else .ok 0
            else
              let needValue := tlSingle (max p.fromStartTime now) p.fromEndTime total
              if ¬ tlIsValid needValue then .error "time lock is invalid"
              else if ¬ tlGe (st.timeLocks sender p.fromAssetID) needValue then
                if ¬ isExt then .error "not enough time lock balance"
                else if p.fromAssetID = SystemAssetID then .ok total
                else if st.balances sender p.fromAssetID < total then
                  .error "not enough time lock or asset balance"
                else .ok 0
              else .ok 0
  | .recallSwap p =>
    match st.getSwap p.swapID with
    | .error _ => .error "RecallSwap: Swap not found"
    | .ok swap =>
      if swap.owner ≠ sender then .error "Must be swap onwer can recall"
      else if ¬ env.recallSwapCheck BigMaxUint64 swap p then
        .error "RecallSwapParam check error"
      else .ok 0
  | .takeSwap isExt p =>
    match st.getSwap p.swapID with
    | .error _ => .error "TakeSwap: Swap not found"
    | .ok swap =>
      if ¬ env.takeSwapCheck BigMaxUint64 swap now p then .error "TakeSwapParam check error"
      else
        match checkSwapTargets swap.targes sender with
        | .error e => .error e
        | .ok _ =>
          if swap.fromAssetID = OwnerUSANAssetID ∧
              (st.notations swap.owner = 0 ∨ st.notations swap.owner ≠ swap.notation_) then
            .error "notation in swap is no longer valid"
          else
            let toTotal := swap.minToAmount * p.size
            if swap.toStartTime = TimeLockNow ∧ swap.toEndTime = TimeLockForever then
              if swap.toAssetID = SystemAssetID then .ok toTotal
              else if st.balances sender swap.toAssetID < toTotal then
                .error "not enough from asset"
              else .ok 0
            else
              let toNeedValue := tlSingle (max swap.toStartTime now) swap.toEndTime toTotal
              if tlIsValid toNeedValue ∧
                  ¬ tlGe (st.timeLocks sender swap.toAssetID) toNeedValue then
                if ¬ isExt then .error "not enough time lock balance"
                else if swap.toAssetID = SystemAssetID then .ok toTotal
                else if st.balances sender swap.toAssetID < toTotal then
                  .error "not enough time lock or asset balance"
                else .ok 0
              else .ok 0
  | .recallMultiSwap p =>
    match st.getMultiSwap p.swapID with
    | .error _ => .error "Swap not found"
    | .ok swap =>
      if swap.owner ≠ sender then .error "Must be swap onwer can recall"
      else if ¬ env.recallMultiSwapCheck BigMaxUint64 swap p then
        .error "RecallMultiSwapParam check error"
      else .ok 0
  | .makeMultiSwap p =>
    match st.getSwap env.uniqueHash with
    | .ok _ => Except.error "Swap already exist"
    | .error _ =>
      if ¬ env.makeMultiSwapCheck BigMaxUint64 now p then
        Except.error "MakeMultiSwapParam check error"
      else if p.toAssetID.any (fun a => ¬ (st.assets a).isSome) then
        Except.error "ToAssetID asset not found"
      else
        let ln := p.fromAssetID.length
        let total := fun i => p.minFromAmount.getD i 0 * p.swapSize
        let useAsset := fun i =>
          p.fromStartTime.getD i 0 = TimeLockNow ∧ p.fromEndTime.getD i 0 = TimeLockForever
        let needValue := fun i =>
          tlSingle (max (p.fromStartTime.getD i 0) now) (p.fromEndTime.getD i 0) (total i)
        if (List.range ln).any (fun i => ¬ useAsset i ∧ ¬ tlIsValid (needValue i)) then
          Except.error "time lock is invalid"
        else
          match
            (List.range ln).foldlM
              (fun (acc : ((AssetID → Nat) × (AssetID → TimeLock)) × Nat) i =>
                let a := p.fromAssetID.getD i 0
                let balance := acc.1.1 a
                let timeLockBalance := acc.1.2 a
                if useAsset i then
                  if balance < total i then Except.error "not enough from asset"
                  else
                    let fv := if a = SystemAssetID then acc.2 + total i else acc.2
                    Except.ok ((fun x => if x = a then balance - total i else acc.1.1 x, acc.1.2), fv)
                else
                  if ¬ tlGe timeLockBalance (needValue i) then
                    if balance < total i then Except.error "not enough time lock or asset balance"
                    else
                      let fv := if a = SystemAssetID then acc.2 + total i else acc.2
                      let tl2 := tlSub
                        (tlAdd timeLockBalance (tlSingle now TimeLockForever (total i)))
                        (needValue i)
                      Except.ok ((fun x => if x = a then balance - total i else acc.1.1 x,
                        fun x => if x = a then tl2 else acc.1.2 x), fv)
                  else
                    Except.ok ((acc.1.1,
                      fun x => if x = a then tlSub timeLockBalance (needValue i) else acc.1.2 x),
                      acc.2))
              ((fun a => st.balances sender a, fun a => st.timeLocks sender a), 0) with
          | .error e => .error e
          | Except.ok acc => Except.ok acc.2
  | .takeMultiSwap p =>
    match st.getMultiSwap p.swapID with
    | .error _ => Except.error "Swap not found"
    | .ok swap =>
      if ¬ env.takeMultiSwapCheck BigMaxUint64 swap now p then
        Except.error "TakeMultiSwapParam check error"
      else
        match checkSwapTargets swap.targes sender with
        | .error e => .error e
        | .ok _ =>
          let lnTo := swap.toAssetID.length
          let toTotal := fun i => swap.minToAmount.getD i 0 * p.size
          let toUseAsset := fun i =>
            swap.toStartTime.getD i 0 = TimeLockNow ∧
              swap.toEndTime.getD i 0 = TimeLockForever
          let toNeedValue := fun i =>
            tlSingle (max (swap.toStartTime.getD i 0) now) (swap.toEndTime.getD i 0)
              (toTotal i)
          match
            (List.range lnTo).foldlM
              (fun (acc : ((AssetID → Nat) × (AssetID → TimeLock)) × Nat) i =>
                let a := swap.toAssetID.getD i 0
                let balance := acc.1.1 a
                let timeLockBalance := acc.1.2 a
                if toUseAsset i then
                  if balance < toTotal i then Except.error "not enough from asset"
                  else
                    let fv := if a = SystemAssetID then acc.2 + toTotal i else acc.2
                    Except.ok ((fun x => if x = a then balance - toTotal i else acc.1.1 x, acc.1.2),
                      fv)
                else
                  if ¬ tlIsValid (toNeedValue i) then Except.ok acc
                  else if ¬ tlGe timeLockBalance (toNeedValue i) then
                    if balance < toTotal i then Except.error "not enough time lock or asset balance"
                    else
                      let fv := if a = SystemAssetID then acc.2 + toTotal i else acc.2
                      let tl2 := tlSub
                        (tlAdd timeLockBalance (tlSingle now TimeLockForever (toTotal i)))
                        (toNeedValue i)
                      Except.ok ((fun x => if x = a then balance - toTotal i else acc.1.1 x,
                        fun x => if x = a then tl2 else acc.1.2 x), fv)
                  else
                    Except.ok ((acc.1.1,
                      fun x =>
                        if x = a then tlSub timeLockBalance (toNeedValue i) else acc.1.2 x),
                      acc.2))
              ((fun a => st.balances sender a, fun a => st.timeLocks sender a), 0) with
          | .error e => .error e
          | Except.ok acc => Except.ok acc.2
  | .reportIllegal report =>
    match env.checkAddingReport st report none with
    | .error e => .error e
    | .ok _ =>
      if reportDupInPool then Except.error "already reported in pool" else .ok 0

/-- The pool validation of one FSN call transaction: the per-function part,
then the final gas + fee + fsnValue balance gate (fsntx_pool.go, end of
`validateFsnCallTx`). -/
def validateFsnCallTx (env : FsnEnv) (currNumber currTime now : Nat)
    (reportDupInPool : Bool) (sender : Addr) (st : FsnState) (gas gasPrice : Nat)
    (call : FsnCall) : Except String Unit :=
  match fsnPreCheck env currNumber currTime now reportDupInPool sender st call with
  | .error e => .error e
  | .ok fsnValue =>
    let mgval := gas * gasPrice + env.getFsnCallFee call.tag + fsnValue
    if st.balances sender SystemAssetID < mgval then .error "insufficient balance"
    else .ok ()

/-! ## The structured-storage codec (StateDB.Get/SetStructData)

Byte strings are lists of naturals.  Slot addresses are Keccak256 values in
the source — `Keccak256(key)` for the header and `Keccak256(i ‖ Keccak256(key))`
for payload slot `i`; Keccak is idealized as collision-free, so a slot key is
represented by its pre-image `(i, key)` resp. `key`. -/

inductive SlotKey where
  | header (key : List Nat) : SlotKey
  | payload (i : Nat) (key : List Nat) : SlotKey
deriving DecidableEq, Repr

/-- Storage slots of all accounts (32-byte words; the zero word when never
written) and the account nonces (`SetStructData` bumps the nonce). -/
structure StructStorage where
  slots : Addr → SlotKey → List Nat
  nonces : Addr → Nat

/-- Modelled from the spec: `common.IntToBytes` — the low 4 bytes, big-endian
(the header stores 32-bit quantities). -/
def intToBytes4 (n : Nat) : List Nat :=
  [n / 2 ^ 24 % 256, n / 2 ^ 16 % 256, n / 2 ^ 8 % 256, n % 256]

/-- Modelled from the spec: `common.BytesToInt`, big-endian. -/
def bytesToInt (bs : List Nat) : Nat :=
  bs.foldl (fun acc b => acc * 256 + b) 0

/-- `common.Hash.SetBytes`: right-align a byte string of length ≤ 32 into a
32-byte word (big-endian tail). -/
def word32 (bs : List Nat) : List Nat :=
  List.replicate (32 - bs.length) 0 ++ bs

/-- The header word of `SetStructData`: size in bytes 0–3, slot count in
bytes 16–19, zero elsewhere. -/
def structHeaderWord (size length : Nat) : List Nat :=
  intToBytes4 size ++ List.replicate 12 0 ++ intToBytes4 length ++ List.replicate 12 0

/-- The slot count `ceil(size/32)` computed by `SetStructData` (`size/32`,
plus one when `size%32 != 0`). -/
def structSlotCount (size : Nat) : Nat :=
  size / 32 + if size % 32 = 0 then 0 else 1

/-- One iteration of the `SetStructData` payload loop (fsnstate.go): write
slot `i` with the (right-aligned) `i`-th 32-byte chunk of `value`. -/
def setPayloadStep (addr : Addr) (key value : List Nat) (acc : StructStorage) (i : Nat) :
    StructStorage :=
  let start := i * 32
  let endd := min (start + 32) value.length
  let chunk := (value.drop start).take (endd - start)
  { acc with slots := fun a k =>
      if a = addr ∧ k = SlotKey.payload i key then word32 chunk else acc.slots a k }

/-- `StateDB.SetStructData` (fsnstate.go): header word, then `ceil(size/32)`
payload slots, the last one right-aligned; finally the nonce bump. -/
def setStructData (σ : StructStorage) (addr : Addr) (key value : List Nat) : StructStorage :=
  let size := value.length
  let length := structSlotCount size
  let info := structHeaderWord size length
  let σ1 : StructStorage := { σ with slots := fun a k =>
      if a = addr ∧ k = SlotKey.header key then info else σ.slots a k }
  let σ2 := (List.range length).foldl (setPayloadStep addr key value) σ1
  { σ2 with nonces := fun a => if a = addr then σ2.nonces a + 1 else σ2.nonces a }

/-- One iteration of the `GetStructData` payload loop (fsnstate.go): splice
the right-aligned tail of slot `i` into the output buffer. -/
def getPayloadStep (σ : StructStorage) (addr : Addr) (key : List Nat) (size : Nat)
    (data : List Nat) (i : Nat) : List Nat :=
  let tempData := σ.slots addr (SlotKey.payload i key)
  let start := i * 32
  let endd := min (start + 32) size
  let src := tempData.drop (32 - (endd - start))
  data.take start ++ src ++ data.drop (start + src.length)

/-- `StateDB.GetStructData` (fsnstate.go): read the header, then copy the
right-aligned tail of each payload slot into a `size`-byte buffer. -/
def getStructData (σ : StructStorage) (addr : Addr) (key : List Nat) : List Nat :=
  let info := σ.slots addr (SlotKey.header key)
  let size := bytesToInt (info.take 4)
  let length := bytesToInt ((info.drop 16).take 4)
  (List.range length).foldl (getPayloadStep σ addr key size) (List.replicate size 0)

/-! ## The process-wide ticket ring cache (CachedTicketSlice) -/

/-- `state.CachedTickets` (the cached slice payload is opaque here). -/
structure CachedTickets where
  hash : HashV
  tickets : List Nat
deriving DecidableEq, Repr

def maxCachedTicketsCount : Nat := 101

/-- `state.CachedTicketSlice`: a 101-slot array with ring indices.  The Go
array's zero value has hash 0 in every slot. -/
structure CachedTicketSlice where
  tickets : List CachedTickets
  start : Nat
  endIdx : Nat
deriving DecidableEq, Repr

def emptyCachedTicketSlice : CachedTicketSlice :=
  { tickets := List.replicate maxCachedTicketsCount ⟨0, []⟩, start := 0, endIdx := 0 }

/-- The `Get` scan `for i := start; i != end; i = (i+1) % 101`.  With
`start, end < 101` the Go loop visits at most 101 slots before reaching `end`;
the fuel argument makes that termination bound explicit. -/
def ringScan (cts : CachedTicketSlice) (h : HashV) : Nat → Nat → Option (List Nat)
  | 0, _ => none
  | fuel + 1, i =>
    if i = cts.endIdx then none
    else
      let v := cts.tickets.getD i ⟨0, []⟩
      if v.hash = h then some v.tickets
      else ringScan cts h fuel ((i + 1) % maxCachedTicketsCount)

/-- `CachedTicketSlice.Get`: the zero hash yields the empty (non-nil) slice;
otherwise scan the ring; `none` models Go's nil result. -/
def CachedTicketSlice.get (cts : CachedTicketSlice) (h : HashV) : Option (List Nat) :=
  if h = 0 then some []
  else ringScan cts h maxCachedTicketsCount cts.start

/-- `CachedTicketSlice.Add`: no-op when `Get` finds the hash; otherwise store
at `end`, advance `end`, and advance `start` when the ring closed
(`DeepCopy` is the identity on immutable values). -/
def CachedTicketSlice.add (cts : CachedTicketSlice) (h : HashV) (tks : List Nat) :
    CachedTicketSlice :=
  if (cts.get h).isSome then cts
  else
    let t1 := cts.tickets.set cts.endIdx ⟨h, tks⟩
    let e1 := (cts.endIdx + 1) % maxCachedTicketsCount
    if e1 = cts.start then
      { tickets := t1, start := (cts.start + 1) % maxCachedTicketsCount, endIdx := e1 }
    else
      { tickets := t1, start := cts.start, endIdx := e1 }

/-! ## Pointer-level model of `GetTimeLockBalance` (aliasing)

`stateObject.TimeLockBalance` returns `s.data.TimeLockBalancesVal[index]` — the
stored `*common.TimeLock` pointer itself.  To state what mutating the returned
value does, the pointers are made explicit: a heap of TimeLock values and an
account whose `TimeLockBalancesVal` column holds heap references. -/

structure TLAccount where
  timeLockBalancesHash : List AssetID
  timeLockBalancesVal : List Nat
deriving DecidableEq, Repr

structure TLHeapState where
  heap : List TimeLock
  account : TLAccount
deriving DecidableEq, Repr

/-- `stateObject.timeLockAssetIndex`: index of the asset column, appending a
fresh (empty) TimeLock cell when absent. -/
def tlAssetIndex (st : TLHeapState) (asset : AssetID) : Nat × TLHeapState :=
  match st.account.timeLockBalancesHash.indexOf? asset with
  | some i => (i, st)
  | none =>
    (st.account.timeLockBalancesHash.length,
      { heap := st.heap ++ [[]],
        account := { timeLockBalancesHash := st.account.timeLockBalancesHash ++ [asset],
                     timeLockBalancesVal := st.account.timeLockBalancesVal ++ [st.heap.length] } })

/-- `stateObject.TimeLockBalance` (hence `StateDB.GetTimeLockBalance` on a
present account): returns the stored pointer `TimeLockBalancesVal[index]`. -/
def getTimeLockBalanceRef (st : TLHeapState) (asset : AssetID) : Nat × TLHeapState :=
  let (i, st') := tlAssetIndex st asset
  (st'.account.timeLockBalancesVal.getD i 0, st')

/-- Dereference the stored time-lock balance of an asset. -/
def readTimeLockBalance (st : TLHeapState) (asset : AssetID) : TimeLock × TLHeapState :=
  let (r, st') := getTimeLockBalanceRef st asset
  (st'.heap.getD r [], st')

/-- Modelled from the spec: `z.Add(z, y)` with the returned TimeLock as
receiver writes the sum back through the pointer `z`. -/
def mutateThroughRef (st : TLHeapState) (r : Nat) (y : TimeLock) : TLHeapState :=
  { st with heap := st.heap.set r (tlAdd (st.heap.getD r []) y) }

/-! ## StateDB read accessors on absent accounts (value-level model)

`getStateObject` (no account creation) backs `GetBalance`, `GetTimeLockBalance`,
`GetNotation` and `GetAllBalances`; on a present account the `Balance` /
`TimeLockBalance` paths may append a zero column through `balanceAssetIndex`,
so the reads are given as value–state pairs. -/

structure Account10 where
  balancesHash : List AssetID
  balancesVal : List Nat
  timeLockBalancesHash : List AssetID
  timeLockBalancesVal : List TimeLock
  nota : Nat
deriving DecidableEq, Repr

structure StateDB10 where
  objects : Addr → Option Account10

/-- `stateObject.balanceAssetIndex`: find-or-append. -/
def Account10.balanceAssetIndex (acc : Account10) (asset : AssetID) : Nat × Account10 :=
  match acc.balancesHash.indexOf? asset with
  | some i => (i, acc)
  | none =>
    (acc.balancesHash.length,
      { acc with balancesHash := acc.balancesHash ++ [asset],
                 balancesVal := acc.balancesVal ++ [0] })

/-- `stateObject.timeLockAssetIndex`: find-or-append. -/
def Account10.timeLockAssetIndex (acc : Account10) (asset : AssetID) : Nat × Account10 :=
  match acc.timeLockBalancesHash.indexOf? asset with
  | some i => (i, acc)
  | none =>
    (acc.timeLockBalancesHash.length,
      { acc with timeLockBalancesHash := acc.timeLockBalancesHash ++ [asset],
                 timeLockBalancesVal := acc.timeLockBalancesVal ++ [[]] })

/-- `StateDB.GetBalance`: `common.Big0` when the account is absent, else
`stateObject.Balance` (which may append a zero column). -/
def StateDB10.getBalance (st : StateDB10) (asset : AssetID) (addr : Addr) :
    Nat × StateDB10 :=
  match st.objects addr with
  | none => (0, st)
  | some acc =>
    let (i, acc') := acc.balanceAssetIndex asset
    (acc'.balancesVal.getD i 0,
      { objects := fun a => if a = addr then some acc' else st.objects a })

/-- `StateDB.GetTimeLockBalance`: `new(common.TimeLock)` (empty) when the
account is absent, else `stateObject.TimeLockBalance`. -/
def StateDB10.getTimeLockBalance (st : StateDB10) (asset : AssetID) (addr : Addr) :
    TimeLock × StateDB10 :=
  match st.objects addr with
  | none => ([], st)
  | some acc =>
    let (i, acc') := acc.timeLockAssetIndex asset
    (acc'.timeLockBalancesVal.getD i [],
      { objects := fun a => if a = addr then some acc' else st.objects a })

/-- `StateDB.GetNotation`: 0 when the account is absent. -/
def StateDB10.getNotationValue (st : StateDB10) (addr : Addr) : Nat :=
  match st.objects addr with
  | none => 0
  | some acc => acc.nota

/-- `StateDB.GetAllBalances`: empty map when the account is absent, else
`CopyBalances` (the non-zero columns). -/
def StateDB10.getAllBalances (st : StateDB10) (addr : Addr) : List (AssetID × Nat) :=
  match st.objects addr with
  | none => []
  | some acc =>
    ((acc.balancesHash.zip acc.balancesVal).filter fun p => p.2 ≠ 0)

/-! ## Semantic lemmas about the TimeLock algebra

The canonical operations are characterized by the pointwise value function
`tlValueAt`: addition and subtraction act pointwise, `Cmp ≥ 0` is pointwise
domination, clearing expired items preserves the value at live instants. -/

theorem tlValueAt_nil (t : Nat) : tlValueAt [] t = 0 := rfl

theorem tlValueAt_cons (it : TimeLockItem) (l : TimeLock) (t : Nat) :
    tlValueAt (it :: l) t =
      (if it.startTime ≤ t ∧ t ≤ it.endTime then it.value else 0) + tlValueAt l t := by
  simp [tlValueAt]

theorem tlValueAt_append (a b : TimeLock) (t : Nat) :
    tlValueAt (a ++ b) t = tlValueAt a t + tlValueAt b t := by
  simp [tlValueAt]

theorem mem_sortedInsertNat {a x : Nat} :
    ∀ {l : List Nat}, a ∈ sortedInsertNat x l ↔ a = x ∨ a ∈ l
  | [] => by simp [sortedInsertNat]
  | y :: ys => by
    rw [sortedInsertNat]
    by_cases h : x ≤ y
    · simp [h]
    · simp only [if_neg h, List.mem_cons, mem_sortedInsertNat (l := ys)]
      tauto

theorem mem_sortNat {a : Nat} : ∀ {l : List Nat}, a ∈ sortNat l ↔ a ∈ l
  | [] => by simp [sortNat]
  | x :: xs => by
    simp only [sortNat, List.foldr_cons, mem_sortedInsertNat, List.mem_cons]
    rw [show List.foldr sortedInsertNat [] xs = sortNat xs from rfl, mem_sortNat]

theorem sortedInsertNat_pairwise {x : Nat} :
    ∀ {l : List Nat}, l.Pairwise (· ≤ ·) → (sortedInsertNat x l).Pairwise (· ≤ ·)
  | [], _ => by simp [sortedInsertNat]
  | y :: ys, h => by
    rw [sortedInsertNat]
    by_cases hxy : x ≤ y
    · rw [if_pos hxy]
      refine List.pairwise_cons.mpr ⟨?_, h⟩
      intro b hb
      rcases List.mem_cons.mp hb with hb | hb
      · omega
      · exact le_trans hxy (List.rel_of_pairwise_cons h hb)
    · rw [if_neg hxy]
      refine List.pairwise_cons.mpr ⟨?_, sortedInsertNat_pairwise h.of_cons⟩
      intro b hb
      rcases mem_sortedInsertNat.mp hb with hb | hb
      · omega
      · exact List.rel_of_pairwise_cons h hb

theorem sortNat_pairwise : ∀ {l : List Nat}, (sortNat l).Pairwise (· ≤ ·)
  | [] => by simp [sortNat]
  | x :: xs => by
    rw [show sortNat (x :: xs) = sortedInsertNat x (sortNat xs) from rfl]
    exact sortedInsertNat_pairwise sortNat_pairwise

theorem mem_dedupNat {a : Nat} : ∀ {l : List Nat}, a ∈ dedupNat l ↔ a ∈ l
  | [] => by simp [dedupNat]
  | [x] => by simp [dedupNat]
  | x :: y :: ys => by
    rw [dedupNat]
    by_cases hxy : x = y
    · rw [if_pos hxy, mem_dedupNat (l := y :: ys)]
      subst hxy
      simp
    · rw [if_neg hxy]
      simp only [List.mem_cons, mem_dedupNat (l := y :: ys)]

theorem dedupNat_pairwise :
    ∀ {l : List Nat}, l.Pairwise (· ≤ ·) → (dedupNat l).Pairwise (· < ·)
  | [], _ => by simp [dedupNat]
  | [x], _ => by simp [dedupNat]
  | x :: y :: ys, h => by
    rw [dedupNat]
    by_cases hxy : x = y
    · exact if_pos hxy ▸ dedupNat_pairwise h.of_cons
    · rw [if_neg hxy]
      refine List.pairwise_cons.mpr ⟨?_, dedupNat_pairwise h.of_cons⟩
      intro b hb
      have hb' : b ∈ y :: ys := mem_dedupNat.mp hb
      have hxb : x ≤ b := List.rel_of_pairwise_cons h hb'
      have hxyle : x ≤ y := List.rel_of_pairwise_cons h (List.mem_cons_self y ys)
      rcases List.mem_cons.mp hb' with hb'' | hb''
      · omega
      · have : y ≤ b := List.rel_of_pairwise_cons h.of_cons hb''
        omega

/-- The raw (unsorted) boundary multiset of a TimeLock. -/
theorem mem_tlRawBounds {x : Nat} :
    ∀ {l : TimeLock},
      x ∈ l.foldr (fun it acc => it.startTime :: (it.endTime + 1) :: acc) [] ↔
        ∃ it ∈ l, x = it.startTime ∨ x = it.endTime + 1
  | [] => by simp
  | it :: l => by
    simp only [List.foldr_cons, List.mem_cons, mem_tlRawBounds (l := l)]
    constructor
    · rintro (h | h | ⟨it', hmem, h⟩)
      · exact ⟨it, Or.inl rfl, Or.inl h⟩
      · exact ⟨it, Or.inl rfl, Or.inr h⟩
      · exact ⟨it', Or.inr hmem, h⟩
    · rintro ⟨it', rfl | hmem, h⟩
      · tauto
      · exact Or.inr (Or.inr ⟨it', hmem, h⟩)

theorem mem_tlBoundaries {x : Nat} {l : TimeLock} :
    x ∈ tlBoundaries l ↔ ∃ it ∈ l, x = it.startTime ∨ x = it.endTime + 1 := by
  rw [tlBoundaries, mem_dedupNat, mem_sortNat, mem_tlRawBounds]

theorem tlBoundaries_pairwise (l : TimeLock) : (tlBoundaries l).Pairwise (· < ·) :=
  dedupNat_pairwise sortNat_pairwise

theorem tlValueAt_constant {l : TimeLock} {u t : Nat} (hut : u ≤ t)
    (h : ∀ b ∈ tlBoundaries l, ¬ (u < b ∧ b ≤ t)) : tlValueAt l t = tlValueAt l u := by
  unfold tlValueAt
  congr 1
  apply List.map_congr_left
  intro it hit
  have hs : ¬ (u < it.startTime ∧ it.startTime ≤ t) :=
    h _ (mem_tlBoundaries.mpr ⟨it, hit, Or.inl rfl⟩)
  have he : ¬ (u < it.endTime + 1 ∧ it.endTime + 1 ≤ t) :=
    h _ (mem_tlBoundaries.mpr ⟨it, hit, Or.inr rfl⟩)
  have hiff : (it.startTime ≤ t ∧ t ≤ it.endTime) ↔ (it.startTime ≤ u ∧ u ≤ it.endTime) := by
    omega
  exact if_congr hiff rfl rfl

theorem tlValueAt_zero_below {l : TimeLock} {t : Nat}
    (h : ∀ b ∈ tlBoundaries l, t < b) : tlValueAt l t = 0 := by
  unfold tlValueAt
  apply List.sum_eq_zero
  intro x hx
  rcases List.mem_map.mp hx with ⟨it, hit, rfl⟩
  have := h _ (mem_tlBoundaries.mpr ⟨it, hit, Or.inl rfl⟩)
  rw [if_neg (by omega)]

theorem tlValueAt_zero_above {l : TimeLock} {t : Nat}
    (h : ∀ b ∈ tlBoundaries l, b ≤ t) : tlValueAt l t = 0 := by
  unfold tlValueAt
  apply List.sum_eq_zero
  intro x hx
  rcases List.mem_map.mp hx with ⟨it, hit, rfl⟩
  have := h _ (mem_tlBoundaries.mpr ⟨it, hit, Or.inr rfl⟩)
  rw [if_neg (by omega)]

theorem exists_greatest_le :
    ∀ (bs : List Nat) (t : Nat), (∃ b ∈ bs, b ≤ t) →
      ∃ u ∈ bs, u ≤ t ∧ ∀ b ∈ bs, b ≤ t → b ≤ u
  | [], _, h => absurd h (by simp)
  | c :: rest, t, h => by
    by_cases hr : ∃ b ∈ rest, b ≤ t
    · obtain ⟨u, hu_mem, hu_le, hu_max⟩ := exists_greatest_le rest t hr
      by_cases hc : c ≤ t ∧ u < c
      · refine ⟨c, by simp, hc.1, ?_⟩
        intro b hb hbt
        rcases List.mem_cons.mp hb with rfl | hb
        · omega
        · have := hu_max b hb hbt; omega
      · refine ⟨u, List.mem_cons_of_mem _ hu_mem, hu_le, ?_⟩
        intro b hb hbt
        rcases List.mem_cons.mp hb with rfl | hb
        · omega
        · exact hu_max b hb hbt
    · obtain ⟨b, hb, hbt⟩ := h
      rcases List.mem_cons.mp hb with rfl | hb'
      · refine ⟨b, by simp, hbt, ?_⟩
        intro b' hb' hbt'
        rcases List.mem_cons.mp hb' with rfl | hb''
        · omega
        · exact absurd ⟨b', hb'', hbt'⟩ hr
      · exact absurd ⟨b, hb', hbt⟩ hr

theorem tlBoundaries_mono_left {x : Nat} {a b : TimeLock}
    (h : x ∈ tlBoundaries a) : x ∈ tlBoundaries (a ++ b) := by
  rcases mem_tlBoundaries.mp h with ⟨it, hit, hx⟩
  exact mem_tlBoundaries.mpr ⟨it, List.mem_append_left _ hit, hx⟩

theorem tlBoundaries_mono_right {x : Nat} {a b : TimeLock}
    (h : x ∈ tlBoundaries b) : x ∈ tlBoundaries (a ++ b) := by
  rcases mem_tlBoundaries.mp h with ⟨it, hit, hx⟩
  exact mem_tlBoundaries.mpr ⟨it, List.mem_append_right _ hit, hx⟩

theorem tlSegs_zero_of_lt (f : Nat → Nat) :
    ∀ (bs : List Nat) (t : Nat), (∀ b ∈ bs, t < b) → tlValueAt (tlSegs f bs) t = 0
  | [], _, _ => rfl
  | [_], _, _ => rfl
  | b₁ :: b₂ :: rest, t, h => by
    rw [tlSegs, tlValueAt_cons,
      tlSegs_zero_of_lt f (b₂ :: rest) t (fun b hb => h b (List.mem_cons_of_mem _ hb))]
    have h1 : t < b₁ := h b₁ (by simp)
    rw [if_neg (show ¬ (b₁ ≤ t ∧ t ≤ b₂ - 1) by omega)]

theorem tlSegs_zero_of_ge (f : Nat → Nat) :
    ∀ (bs : List Nat), bs.Pairwise (· < ·) → ∀ t : Nat,
      (∀ b ∈ bs, b ≤ t) → tlValueAt (tlSegs f bs) t = 0
  | [], _, _, _ => rfl
  | [_], _, _, _ => rfl
  | b₁ :: b₂ :: rest, hp, t, h => by
    rw [tlSegs, tlValueAt_cons,
      tlSegs_zero_of_ge f (b₂ :: rest) hp.of_cons t
        (fun b hb => h b (List.mem_cons_of_mem _ hb))]
    have h1 : b₁ < b₂ := List.rel_of_pairwise_cons hp (by simp)
    have h2 : b₂ ≤ t := h b₂ (by simp)
    rw [if_neg (show ¬ (b₁ ≤ t ∧ t ≤ b₂ - 1) by omega)]

theorem tlSegs_valueAt_main (f : Nat → Nat) :
    ∀ (bs : List Nat), bs.Pairwise (· < ·) → ∀ t : Nat,
      (∃ b ∈ bs, b ≤ t) → (∃ b ∈ bs, t < b) →
      (∀ u ∈ bs, u ≤ t → (∀ b ∈ bs, ¬ (u < b ∧ b ≤ t)) → f t = f u) →
      tlValueAt (tlSegs f bs) t = f t
  | [], _, t, h1, _, _ => absurd h1 (by simp)
  | [b], _, t, h1, h2, _ => by
    obtain ⟨x, hx, hx'⟩ := h1
    obtain ⟨y, hy, hy'⟩ := h2
    simp only [List.mem_singleton] at hx hy
    omega
  | b₁ :: b₂ :: rest, hp, t, h1, h2, hc => by
    have hb12 : b₁ < b₂ := List.rel_of_pairwise_cons hp (by simp)
    have htail_lb : ∀ b ∈ b₂ :: rest, b₂ ≤ b := by
      intro b hb
      rcases List.mem_cons.mp hb with rfl | hb
      · omega
      · exact Nat.le_of_lt (List.rel_of_pairwise_cons hp.of_cons hb)
    have hall_lb : ∀ b ∈ b₁ :: b₂ :: rest, b₁ ≤ b := by
      intro b hb
      rcases List.mem_cons.mp hb with rfl | hb
      · omega
      · exact Nat.le_of_lt (List.rel_of_pairwise_cons hp hb)
    by_cases hcase : t < b₂
    · -- the first segment covers t
      have hb1t : b₁ ≤ t := by
        obtain ⟨x, hx, hx'⟩ := h1
        rcases List.mem_cons.mp hx with rfl | hx
        · exact hx'
        · have := htail_lb x hx; omega
      rw [tlSegs, tlValueAt_cons,
        tlSegs_zero_of_lt f (b₂ :: rest) t (fun b hb => by have := htail_lb b hb; omega)]
      rw [if_pos (show b₁ ≤ t ∧ t ≤ b₂ - 1 by omega), add_zero]
      exact (hc b₁ (by simp) hb1t (fun b hb => by
        rcases List.mem_cons.mp hb with rfl | hb
        · omega
        · have := htail_lb b hb; omega)).symm
    · -- t lies beyond the first segment: recurse into the tail
      rw [tlSegs, tlValueAt_cons, if_neg (show ¬ (b₁ ≤ t ∧ t ≤ b₂ - 1) by omega), zero_add]
      apply tlSegs_valueAt_main f (b₂ :: rest) hp.of_cons t
      · exact ⟨b₂, by simp, by omega⟩
      · obtain ⟨y, hy, hy'⟩ := h2
        rcases List.mem_cons.mp hy with rfl | hy
        · omega
        · exact ⟨y, hy, hy'⟩
      · intro u hu hut hno
        apply hc u (List.mem_cons_of_mem _ hu) hut
        intro b hb
        rcases List.mem_cons.mp hb with rfl | hb
        · have := htail_lb u hu; omega
        · exact hno b hb

theorem tlSegs_proper (f : Nat → Nat) :
    ∀ (bs : List Nat), bs.Pairwise (· < ·) →
      ∀ it ∈ tlSegs f bs, it.startTime ≤ it.endTime
  | [], _, it, h => absurd h (by simp [tlSegs])
  | [_], _, it, h => absurd h (by simp [tlSegs])
  | b₁ :: b₂ :: rest, hp, it, h => by
    rw [tlSegs] at h
    rcases List.mem_cons.mp h with rfl | h
    · have : b₁ < b₂ := List.rel_of_pairwise_cons hp (by simp)
      show b₁ ≤ b₂ - 1
      omega
    · exact tlSegs_proper f (b₂ :: rest) hp.of_cons it h

theorem tlMergeAdj_proper :
    ∀ {l : TimeLock}, (∀ it ∈ l, it.startTime ≤ it.endTime) →
      ∀ it ∈ tlMergeAdj l, it.startTime ≤ it.endTime
  | [], _ => by simp [tlMergeAdj]
  | x :: rest, h => by
    have ih := tlMergeAdj_proper (l := rest) (fun it hit => h it (List.mem_cons_of_mem _ hit))
    have hx := h x (by simp)
    rw [tlMergeAdj]
    rcases hm : tlMergeAdj rest with - | ⟨y, out⟩
    · dsimp only
      intro it hit
      rcases List.mem_singleton.mp hit with rfl
      exact hx
    · rw [hm] at ih
      dsimp only
      have hy := ih y (by simp)
      by_cases hc : x.endTime + 1 = y.startTime ∧ x.value = y.value
      · rw [if_pos hc]
        intro it hit
        rcases List.mem_cons.mp hit with rfl | hit
        · show x.startTime ≤ y.endTime
          omega
        · exact ih it (List.mem_cons_of_mem _ hit)
      · rw [if_neg hc]
        intro it hit
        rcases List.mem_cons.mp hit with rfl | hit
        · exact hx
        · exact ih it hit

theorem tlMergeAdj_valueAt :
    ∀ {l : TimeLock}, (∀ it ∈ l, it.startTime ≤ it.endTime) →
      ∀ t, tlValueAt (tlMergeAdj l) t = tlValueAt l t
  | [], _, t => rfl
  | x :: rest, h, t => by
    have ih := tlMergeAdj_valueAt (l := rest)
      (fun it hit => h it (List.mem_cons_of_mem _ hit)) t
    have hprop := tlMergeAdj_proper (l := rest)
      (fun it hit => h it (List.mem_cons_of_mem _ hit))
    have hx := h x (by simp)
    rw [tlMergeAdj]
    rcases hm : tlMergeAdj rest with - | ⟨y, out⟩
    · rw [hm] at ih
      dsimp only
      rw [tlValueAt_cons, tlValueAt_cons, tlValueAt_nil, ← ih, tlValueAt_nil]
    · rw [hm] at ih hprop
      dsimp only
      have hy := hprop y (by simp)
      by_cases hc : x.endTime + 1 = y.startTime ∧ x.value = y.value
      · rw [if_pos hc, tlValueAt_cons, tlValueAt_cons, ← ih, tlValueAt_cons]
        obtain ⟨hce, hcv⟩ := hc
        show (if x.startTime ≤ t ∧ t ≤ y.endTime then x.value else 0) + tlValueAt out t = _
        rw [← hcv]
        by_cases h1 : x.startTime ≤ t ∧ t ≤ y.endTime
        · by_cases h2 : t ≤ x.endTime
          · rw [if_pos (by omega), if_pos (by omega), if_neg (by omega)]
            omega
          · rw [if_pos (by omega), if_neg (by omega), if_pos (by omega)]
            omega
        · rw [if_neg (by omega), if_neg (by omega), if_neg (by omega)]
          omega
      · rw [if_neg hc, tlValueAt_cons, ih, tlValueAt_cons]

theorem tlFilterPos_valueAt :
    ∀ (l : TimeLock) (t : Nat),
      tlValueAt (l.filter fun it => 0 < it.value) t = tlValueAt l t
  | [], _ => rfl
  | it :: l, t => by
    rw [tlValueAt_cons, ← tlFilterPos_valueAt l t]
    by_cases h : 0 < it.value
    · rw [List.filter_cons_of_pos (by simpa using h), tlValueAt_cons]
    · rw [List.filter_cons_of_neg (by simpa using h)]
      have : it.value = 0 := by omega
      simp [this]

theorem tlCanonOf_valueAt (f : Nat → Nat) (bs : List Nat) (hs : bs.Pairwise (· < ·))
    (hbelow : ∀ t, (∀ b ∈ bs, t < b) → f t = 0)
    (habove : ∀ t, (∀ b ∈ bs, b ≤ t) → f t = 0)
    (hconst : ∀ u t, u ≤ t → (∀ b ∈ bs, ¬ (u < b ∧ b ≤ t)) → f t = f u)
    (t : Nat) : tlValueAt (tlCanonOf f bs) t = f t := by
  unfold tlCanonOf
  rw [tlMergeAdj_valueAt
      (fun it hit => tlSegs_proper f bs hs it (List.mem_of_mem_filter hit)),
    tlFilterPos_valueAt]
  by_cases h1 : ∃ b ∈ bs, b ≤ t
  · by_cases h2 : ∃ b ∈ bs, t < b
    · exact tlSegs_valueAt_main f bs hs t h1 h2 (fun u _ hut hno => hconst u t hut hno)
    · push_neg at h2
      rw [tlSegs_zero_of_ge f bs hs t h2, habove t h2]
  · push_neg at h1
    rw [tlSegs_zero_of_lt f bs t h1, hbelow t h1]

theorem tlAdd_valueAt (a b : TimeLock) (t : Nat) :
    tlValueAt (tlAdd a b) t = tlValueAt a t + tlValueAt b t := by
  unfold tlAdd
  apply tlCanonOf_valueAt
  · exact tlBoundaries_pairwise _
  · intro t' h
    rw [tlValueAt_zero_below (fun x hx => h x (tlBoundaries_mono_left hx)),
      tlValueAt_zero_below (fun x hx => h x (tlBoundaries_mono_right hx))]
  · intro t' h
    rw [tlValueAt_zero_above (fun x hx => h x (tlBoundaries_mono_left hx)),
      tlValueAt_zero_above (fun x hx => h x (tlBoundaries_mono_right hx))]
  · intro u t' hut hno
    rw [tlValueAt_constant hut (fun x hx => hno x (tlBoundaries_mono_left hx)),
      tlValueAt_constant hut (fun x hx => hno x (tlBoundaries_mono_right hx))]

theorem tlSub_valueAt (a b : TimeLock) (t : Nat) :
    tlValueAt (tlSub a b) t = tlValueAt a t - tlValueAt b t := by
  unfold tlSub
  apply tlCanonOf_valueAt
  · exact tlBoundaries_pairwise _
  · intro t' h
    rw [tlValueAt_zero_below (fun x hx => h x (tlBoundaries_mono_left hx))]
    omega
  · intro t' h
    rw [tlValueAt_zero_above (fun x hx => h x (tlBoundaries_mono_left hx))]
    omega
  · intro u t' hut hno
    rw [tlValueAt_constant hut (fun x hx => hno x (tlBoundaries_mono_left hx)),
      tlValueAt_constant hut (fun x hx => hno x (tlBoundaries_mono_right hx))]

theorem tlClearExpired_valueAt {l : TimeLock} {ts t : Nat} (h : ts ≤ t) :
    tlValueAt (tlClearExpired l ts) t = tlValueAt l t := by
  induction l with
  | nil => rfl
  | cons it l ih =>
    unfold tlClearExpired at ih ⊢
    by_cases hit : ts ≤ it.endTime
    · rw [List.filter_cons_of_pos (by simpa using hit), tlValueAt_cons, tlValueAt_cons, ih]
    · rw [List.filter_cons_of_neg (by simpa using hit), tlValueAt_cons, ih,
        if_neg (by omega)]
      omega

theorem tlIsEmpty_valueAt {l : TimeLock} (h : tlIsEmpty l = true) (t : Nat) :
    tlValueAt l t = 0 := by
  unfold tlValueAt
  apply List.sum_eq_zero
  intro x hx
  rcases List.mem_map.mp hx with ⟨it, hit, rfl⟩
  have := List.all_eq_true.mp h it hit
  have hv : it.value = 0 := by simpa using this
  simp [hv]

theorem tlGe_iff {a b : TimeLock} :
    tlGe a b = true ↔ ∀ t, tlValueAt b t ≤ tlValueAt a t := by
  constructor
  · intro h t
    by_cases h1 : ∃ x ∈ tlBoundaries (a ++ b), x ≤ t
    · obtain ⟨u, hu_mem, hu_le, hu_max⟩ := exists_greatest_le _ t h1
      have hno : ∀ x ∈ tlBoundaries (a ++ b), ¬ (u < x ∧ x ≤ t) := by
        intro x hx hcon
        have := hu_max x hx hcon.2
        omega
      rw [tlValueAt_constant hu_le (fun x hx => hno x (tlBoundaries_mono_left hx)),
        tlValueAt_constant hu_le (fun x hx => hno x (tlBoundaries_mono_right hx))]
      have := List.all_eq_true.mp h u hu_mem
      simpa using this
    · push_neg at h1
      rw [tlValueAt_zero_below (fun x hx => h1 x (tlBoundaries_mono_left hx)),
        tlValueAt_zero_below (fun x hx => h1 x (tlBoundaries_mono_right hx))]
  · intro h
    rw [tlGe, List.all_eq_true]
    intro x _
    simpa using h x

/-! ## State-operation lemmas -/

theorem addBalance_self (st : FsnState) (addr : Addr) (asset : AssetID) (v : Nat) :
    (st.addBalance addr asset v).balances addr asset = st.balances addr asset + v := by
  simp [FsnState.addBalance]

theorem addBalance_frame (st : FsnState) {addr : Addr} {asset : AssetID} (v : Nat)
    {a : Addr} {i : AssetID} (h : ¬ (a = addr ∧ i = asset)) :
    (st.addBalance addr asset v).balances a i = st.balances a i := by
  simp only [FsnState.addBalance]
  rw [if_neg h]

theorem addBalance_timeLocks (st : FsnState) (addr : Addr) (asset : AssetID) (v : Nat) :
    (st.addBalance addr asset v).timeLocks = st.timeLocks := rfl

theorem subBalance_self (st : FsnState) (addr : Addr) (asset : AssetID) (v : Nat) :
    (st.subBalance addr asset v).balances addr asset = st.balances addr asset - v := by
  simp [FsnState.subBalance]

theorem subBalance_frame (st : FsnState) {addr : Addr} {asset : AssetID} (v : Nat)
    {a : Addr} {i : AssetID} (h : ¬ (a = addr ∧ i = asset)) :
    (st.subBalance addr asset v).balances a i = st.balances a i := by
  simp only [FsnState.subBalance]
  rw [if_neg h]

theorem subBalance_timeLocks (st : FsnState) (addr : Addr) (asset : AssetID) (v : Nat) :
    (st.subBalance addr asset v).timeLocks = st.timeLocks := rfl

theorem addTimeLockBalance_valueAt (st : FsnState) (addr : Addr) (asset : AssetID)
    (amount : TimeLock) {ts t : Nat} (h : ts ≤ t) :
    tlValueAt ((st.addTimeLockBalance addr asset amount ts).timeLocks addr asset) t =
      tlValueAt (st.timeLocks addr asset) t + tlValueAt amount t := by
  unfold FsnState.addTimeLockBalance
  by_cases he : tlIsEmpty amount
  · rw [if_pos he, tlIsEmpty_valueAt he]
    omega
  · rw [if_neg he]
    show tlValueAt (if addr = addr ∧ asset = asset then _ else _) t = _
    rw [if_pos ⟨rfl, rfl⟩, tlClearExpired_valueAt h, tlAdd_valueAt]

theorem subTimeLockBalance_valueAt (st : FsnState) (addr : Addr) (asset : AssetID)
    (amount : TimeLock) {ts t : Nat} (h : ts ≤ t) :
    tlValueAt ((st.subTimeLockBalance addr asset amount ts).timeLocks addr asset) t =
      tlValueAt (st.timeLocks addr asset) t - tlValueAt amount t := by
  unfold FsnState.subTimeLockBalance
  by_cases he : tlIsEmpty amount
  · rw [if_pos he, tlIsEmpty_valueAt he]
    omega
  · rw [if_neg he]
    show tlValueAt (if addr = addr ∧ asset = asset then _ else _) t = _
    rw [if_pos ⟨rfl, rfl⟩, tlClearExpired_valueAt h, tlSub_valueAt]

theorem addTimeLockBalance_frame (st : FsnState) {addr : Addr} {asset : AssetID}
    (amount : TimeLock) (ts : Nat) {a : Addr} {i : AssetID} (h : ¬ (a = addr ∧ i = asset)) :
    (st.addTimeLockBalance addr asset amount ts).timeLocks a i = st.timeLocks a i := by
  unfold FsnState.addTimeLockBalance
  by_cases he : tlIsEmpty amount
  · rw [if_pos he]
  · rw [if_neg he]
    show (if a = addr ∧ i = asset then _ else _) = _
    rw [if_neg h]

theorem subTimeLockBalance_frame (st : FsnState) {addr : Addr} {asset : AssetID}
    (amount : TimeLock) (ts : Nat) {a : Addr} {i : AssetID} (h : ¬ (a = addr ∧ i = asset)) :
    (st.subTimeLockBalance addr asset amount ts).timeLocks a i = st.timeLocks a i := by
  unfold FsnState.subTimeLockBalance
  by_cases he : tlIsEmpty amount
  · rw [if_pos he]
  · rw [if_neg he]
    show (if a = addr ∧ i = asset then _ else _) = _
    rw [if_neg h]

theorem addTimeLockBalance_balances (st : FsnState) (addr : Addr) (asset : AssetID)
    (amount : TimeLock) (ts : Nat) :
    (st.addTimeLockBalance addr asset amount ts).balances = st.balances := by
  unfold FsnState.addTimeLockBalance
  by_cases he : tlIsEmpty amount
  · rw [if_pos he]
  · rw [if_neg he]

theorem subTimeLockBalance_balances (st : FsnState) (addr : Addr) (asset : AssetID)
    (amount : TimeLock) (ts : Nat) :
    (st.subTimeLockBalance addr asset amount ts).balances = st.balances := by
  unfold FsnState.subTimeLockBalance
  by_cases he : tlIsEmpty amount
  · rw [if_pos he]
  · rw [if_neg he]

theorem addTicket_balances (st : FsnState) (t : Ticket) :
    (st.addTicket t).balances = st.balances := rfl

theorem addTicket_timeLocks (st : FsnState) (t : Ticket) :
    (st.addTicket t).timeLocks = st.timeLocks := rfl

theorem addTicket_tickets (st : FsnState) (t : Ticket) :
    (st.addTicket t).tickets = st.tickets ++ [t] := rfl

theorem addTimeLockBalance_tickets (st : FsnState) (addr : Addr) (asset : AssetID)
    (amount : TimeLock) (ts : Nat) :
    (st.addTimeLockBalance addr asset amount ts).tickets = st.tickets := by
  unfold FsnState.addTimeLockBalance
  by_cases he : tlIsEmpty amount
  · rw [if_pos he]
  · rw [if_neg he]

theorem subTimeLockBalance_tickets (st : FsnState) (addr : Addr) (asset : AssetID)
    (amount : TimeLock) (ts : Nat) :
    (st.subTimeLockBalance addr asset amount ts).tickets = st.tickets := by
  unfold FsnState.subTimeLockBalance
  by_cases he : tlIsEmpty amount
  · rw [if_pos he]
  · rw [if_neg he]

theorem subBalance_tickets (st : FsnState) (addr : Addr) (asset : AssetID) (v : Nat) :
    (st.subBalance addr asset v).tickets = st.tickets := rfl

/-- Reduction of the dispatcher on an AssetToTimeLock call whose parameter
check and required-TimeLock validity pass. -/
theorem handleFsnCall_assetToTimeLock (env : FsnEnv) (height ts now sender : Nat)
    (st : FsnState) (p : TimeLockParam)
    (htyp : p.typ = TimeLockType.assetToTimeLock)
    (hcheck : env.timeLockCheck height ts p = true)
    (hvalid : tlIsValid (tlSingle (max p.startTime ts) p.endTime p.value) = true) :
    handleFsnCall env height ts now sender st (.timeLock p) =
      (if st.balances sender p.assetID < p.value then (st, .error "not enough asset")
        else
          let needValue := tlSingle (max p.startTime ts) p.endTime p.value
          let st1 := st.subBalance sender p.assetID p.value
          let totalValue := tlSingle ts TimeLockForever p.value
          if sender = p.toAddr then
            (st1.addTimeLockBalance p.toAddr p.assetID totalValue ts, .ok ())
          else
            let surplusValue := tlSub totalValue needValue
            let st2 :=
              if ¬ tlIsEmpty surplusValue then
                st1.addTimeLockBalance sender p.assetID surplusValue ts
              else st1
            (st2.addTimeLockBalance p.toAddr p.assetID needValue ts, .ok ())) := by
  obtain ⟨typ, aid, toA, s, e, v⟩ := p
  simp only at htyp
  subst htyp
  simp only [handleFsnCall]
  simp only at hcheck hvalid ⊢
  simp [hcheck, hvalid]

/-! ## Concrete data for scenario witnesses -/

/-- Environment for the concrete scenarios: every parameter check accepts,
every fork gate is open, ticket price 1, call fees 0, fixed hashes. -/
def wEnv : FsnEnv :=
  { ticketPrice := fun _ => 1
    isHardFork2 := fun _ => true
    isSmartTransferEnabled := fun _ => true
    isPrivateSwapCheckingEnabled := fun _ => true
    isMultipleMiningCheckingEnabled := fun _ => true
    parentHash := 77
    uniqueHash := 88
    genAssetCheck := fun _ _ => true
    sendAssetCheck := fun _ _ => true
    timeLockCheck := fun _ _ _ => true
    buyTicketCheck := fun _ _ _ => true
    assetValueChangeCheck := fun _ _ => true
    makeSwapCheck := fun _ _ _ => true
    recallSwapCheck := fun _ _ _ => true
    takeSwapCheck := fun _ _ _ _ => true
    makeMultiSwapCheck := fun _ _ _ => true
    recallMultiSwapCheck := fun _ _ _ => true
    takeMultiSwapCheck := fun _ _ _ _ => true
    checkAddingReport := fun _ _ _ => .ok (0, 0)
    processReport := fun _ _ _ st _ _ => (st, [])
    getFsnCallFee := fun _ => 0 }

/-- A state with no balances, time locks, registrations or tickets. -/
def emptyFsnState : FsnState :=
  { balances := fun _ _ => 0
    timeLocks := fun _ _ => []
    notations := fun _ => 0
    notationCount := 0
    notationOwner := fun _ => 0
    assets := fun _ => none
    swaps := fun _ => none
    multiSwaps := fun _ => none
    tickets := []
    reports := [] }

/-- Scenario S1: Alice (address 10) holds 100 units of the system asset. -/
def s1State : FsnState :=
  { emptyFsnState with
      balances := fun a i => if a = 10 ∧ i = SystemAssetID then 100 else 0 }

/-- Scenario S2: the buyer (address 10) holds 5 units of the system asset. -/
def s2State : FsnState :=
  { emptyFsnState with
      balances := fun a i => if a = 10 ∧ i = SystemAssetID then 5 else 0 }

/-- Scenario S3: the maker (address 10) holds 50 units of asset 5 and no time
locks; assets 5 and 6 are registered. -/
def s3State : FsnState :=
  { emptyFsnState with
      balances := fun a i => if a = 10 ∧ i = 5 then 50 else 0
      assets := fun i =>
        if i = 6 then some ⟨6, 99, 1000, false⟩
        else if i = 5 then some ⟨5, 98, 1000, false⟩ else none }

/-- The S3 MakeSwap parameter: 4 × 5 units of asset 5 locked over
`[3000, 9000]` (not the whole line) against asset 6. -/
def s3Param : MakeSwapParam :=
  { fromAssetID := 5, fromStartTime := 3000, fromEndTime := 9000
    minFromAmount := 4, toAssetID := 6, toStartTime := 0, toEndTime := TimeLockForever
    minToAmount := 2, swapSize := 5, targes := [], time := 0, description := "" }

/-! ## Lemmas about the structured-storage codec -/

theorem setFold_slots_preserve (addr : Addr) (key value : List Nat) (is : List Nat) :
    ∀ (σ0 : StructStorage) (a : Addr) (k : SlotKey),
      (∀ j ∈ is, ¬ (a = addr ∧ k = SlotKey.payload j key)) →
      (is.foldl (setPayloadStep addr key value) σ0).slots a k = σ0.slots a k := by
  induction is with
  | nil => intro σ0 a k _; rfl
  | cons i is ih =>
    intro σ0 a k h
    rw [List.foldl_cons, ih _ a k (fun j hj => h j (List.mem_cons_of_mem _ hj))]
    show (if a = addr ∧ k = SlotKey.payload i key then
        word32 ((value.drop (i * 32)).take (min (i * 32 + 32) value.length - i * 32))
      else σ0.slots a k) = σ0.slots a k
    exact if_neg (h i (List.mem_cons_self _ _))

theorem setFold_slots_get (addr : Addr) (key value : List Nat) (is : List Nat) :
    ∀ (σ0 : StructStorage) (j : Nat), j ∈ is →
      (is.foldl (setPayloadStep addr key value) σ0).slots addr (SlotKey.payload j key) =
        word32 ((value.drop (j * 32)).take (min (j * 32 + 32) value.length - j * 32)) := by
  induction is with
  | nil => intro σ0 j h; exact absurd h (List.not_mem_nil _)
  | cons i is ih =>
    intro σ0 j hj
    rw [List.foldl_cons]
    by_cases hmem : j ∈ is
    · exact ih _ j hmem
    · have hji : j = i := by
        rcases List.mem_cons.mp hj with h | h
        · exact h
        · exact absurd h hmem
      subst hji
      have hpres : ∀ j' ∈ is, ¬ (addr = addr ∧ SlotKey.payload j key = SlotKey.payload j' key) := by
        intro j' hj' hcon
        have h12 : j = j' := by injection hcon.2 with h1 _
        exact hmem (h12 ▸ hj')
      rw [setFold_slots_preserve addr key value is _ addr _ hpres]
      show (if addr = addr ∧ SlotKey.payload j key = SlotKey.payload j key then
          word32 ((value.drop (j * 32)).take (min (j * 32 + 32) value.length - j * 32))
        else σ0.slots addr (SlotKey.payload j key)) =
        word32 ((value.drop (j * 32)).take (min (j * 32 + 32) value.length - j * 32))
      exact if_pos ⟨rfl, rfl⟩

theorem setStructData_slots_header (σ : StructStorage) (addr : Addr) (key value : List Nat) :
    (setStructData σ addr key value).slots addr (SlotKey.header key) =
      structHeaderWord value.length (structSlotCount value.length) := by
  show ((List.range (structSlotCount value.length)).foldl (setPayloadStep addr key value)
      { σ with slots := fun a k =>
          if a = addr ∧ k = SlotKey.header key then
            structHeaderWord value.length (structSlotCount value.length)
          else σ.slots a k }).slots addr (SlotKey.header key) = _
  rw [setFold_slots_preserve addr key value _ _ addr _ (fun j _ hcon => SlotKey.noConfusion hcon.2)]
  exact if_pos ⟨rfl, rfl⟩

theorem setStructData_slots_payload (σ : StructStorage) (addr : Addr) (key value : List Nat)
    (j : Nat) (hj : j < structSlotCount value.length) :
    (setStructData σ addr key value).slots addr (SlotKey.payload j key) =
      word32 ((value.drop (j * 32)).take (min (j * 32 + 32) value.length - j * 32)) := by
  show ((List.range (structSlotCount value.length)).foldl (setPayloadStep addr key value)
      { σ with slots := fun a k =>
          if a = addr ∧ k = SlotKey.header key then
            structHeaderWord value.length (structSlotCount value.length)
          else σ.slots a k }).slots addr (SlotKey.payload j key) = _
  exact setFold_slots_get addr key value _ _ j (List.mem_range.mpr hj)

theorem bytesToInt_intToBytes4 (n : Nat) (h : n < 2 ^ 32) : bytesToInt (intToBytes4 n) = n := by
  show (((0 * 256 + n / 2 ^ 24 % 256) * 256 + n / 2 ^ 16 % 256) * 256 + n / 2 ^ 8 % 256) * 256
      + n % 256 = n
  omega

theorem structHeaderWord_take4 (size length : Nat) :
    (structHeaderWord size length).take 4 = intToBytes4 size := rfl

theorem structHeaderWord_drop16_take4 (size length : Nat) :
    ((structHeaderWord size length).drop 16).take 4 = intToBytes4 length := rfl

theorem structSlotCount_le (n : Nat) : n ≤ structSlotCount n * 32 := by
  unfold structSlotCount
  by_cases h0 : n % 32 = 0
  · rw [if_pos h0]; omega
  · rw [if_neg h0]; omega

theorem structSlotCount_mul_lt (n k : Nat) (h : k < structSlotCount n) : k * 32 < n := by
  unfold structSlotCount at h
  by_cases h0 : n % 32 = 0
  · rw [if_pos h0] at h; omega
  · rw [if_neg h0] at h; omega

theorem structSlotCount_lt_of_lt (n : Nat) (h : n < 2 ^ 32) : structSlotCount n < 2 ^ 32 := by
  unfold structSlotCount
  by_cases h0 : n % 32 = 0
  · rw [if_pos h0]; omega
  · rw [if_neg h0]; omega

theorem word32_length_le (bs : List Nat) (h : bs.length ≤ 32) : (word32 bs).length ≤ 32 := by
  unfold word32
  rw [List.length_append, List.length_replicate]
  omega

theorem drop_word32 (bs : List Nat) (m : Nat) (hm : bs.length = m) :
    (word32 bs).drop (32 - m) = bs := by
  subst hm
  unfold word32
  calc (List.replicate (32 - bs.length) (0 : Nat) ++ bs).drop (32 - bs.length)
      = (List.replicate (32 - bs.length) (0 : Nat) ++ bs).drop
          (List.replicate (32 - bs.length) (0 : Nat)).length := by
        rw [List.length_replicate]
    _ = bs := List.drop_left _ _

theorem getFold_take (σ : StructStorage) (addr : Addr) (key value : List Nat) :
    ∀ (k : Nat), k ≤ structSlotCount value.length →
      (List.range k).foldl
          (getPayloadStep (setStructData σ addr key value) addr key value.length)
          (List.replicate value.length 0) =
        value.take (min (k * 32) value.length) ++
          List.replicate (value.length - k * 32) 0 := by
  intro k
  induction k with
  | zero => intro _; simp
  | succ k ih =>
    intro hk
    have hkL : k < structSlotCount value.length := hk
    have hstart : k * 32 < value.length := structSlotCount_mul_lt _ _ hkL
    rw [List.range_succ, List.foldl_append, List.foldl_cons, List.foldl_nil,
      ih (Nat.le_of_succ_le hk)]
    have hmin : min (k * 32) value.length = k * 32 := by omega
    rw [hmin]
    have hslot := setStructData_slots_payload σ addr key value k hkL
    have hchunklen :
        ((value.drop (k * 32)).take (min (k * 32 + 32) value.length - k * 32)).length =
          min (k * 32 + 32) value.length - k * 32 := by
      rw [List.length_take, List.length_drop]; omega
    simp only [getPayloadStep]
    rw [hslot]
    have hsrc : (word32 ((value.drop (k * 32)).take (min (k * 32 + 32) value.length - k * 32))).drop
        (32 - (min (k * 32 + 32) value.length - k * 32)) =
        (value.drop (k * 32)).take (min (k * 32 + 32) value.length - k * 32) :=
      drop_word32 _ _ hchunklen
    rw [hsrc, hchunklen]
    have htake : List.take (k * 32)
        (value.take (k * 32) ++ List.replicate (value.length - k * 32) 0) =
        value.take (k * 32) := by
      rw [List.take_append_of_le_length (by rw [List.length_take]; omega), List.take_take]
      congr 1
      omega
    have hdrop : List.drop (k * 32 + (min (k * 32 + 32) value.length - k * 32))
        (value.take (k * 32) ++ List.replicate (value.length - k * 32) 0) =
        List.replicate (value.length - min (k * 32 + 32) value.length) 0 := by
      have hlen : (value.take (k * 32)).length = k * 32 := by rw [List.length_take]; omega
      rw [show k * 32 + (min (k * 32 + 32) value.length - k * 32) =
        (value.take (k * 32)).length + (min (k * 32 + 32) value.length - k * 32) from by omega]
      rw [List.drop_append, List.drop_replicate]
      congr 1
      omega
    rw [htake, hdrop]
    have hjoin : value.take (k * 32) ++
        (value.drop (k * 32)).take (min (k * 32 + 32) value.length - k * 32) =
        value.take (min (k * 32 + 32) value.length) := by
      rw [← List.take_add]
      congr 1
      omega
    rw [List.append_assoc, ← List.append_assoc, hjoin]
    have h1 : min ((k + 1) * 32) value.length = min (k * 32 + 32) value.length := by omega
    have h2 : value.length - (k + 1) * 32 = value.length - min (k * 32 + 32) value.length := by
      omega
    rw [h1, h2]

theorem getStructData_setStructData (σ : StructStorage) (addr : Addr) (key value : List Nat)
    (h : value.length < 2 ^ 32) :
    getStructData (setStructData σ addr key value) addr key = value := by
  have hL : structSlotCount value.length < 2 ^ 32 := structSlotCount_lt_of_lt _ h
  simp only [getStructData]
  rw [setStructData_slots_header, structHeaderWord_take4, structHeaderWord_drop16_take4,
    bytesToInt_intToBytes4 _ h, bytesToInt_intToBytes4 _ hL,
    getFold_take σ addr key value (structSlotCount value.length) (le_refl _)]
  have h1 : min (structSlotCount value.length * 32) value.length = value.length := by
    have := structSlotCount_le value.length
    omega
  have h2 : value.length - structSlotCount value.length * 32 = 0 := by
    have := structSlotCount_le value.length
    omega
  rw [h1, h2, List.take_length]
  simp

theorem getPayloadStep_zero (σ : StructStorage) (addr : Addr) (key : List Nat) (i : Nat)
    (h : (σ.slots addr (SlotKey.payload i key)).length ≤ 32) :
    getPayloadStep σ addr key 0 [] i = [] := by
  simp only [getPayloadStep]
  have hd : (σ.slots addr (SlotKey.payload i key)).drop (32 - (min (i * 32 + 32) 0 - i * 32)) =
      [] := List.drop_eq_nil_of_le (by omega)
  rw [hd]
  simp

theorem getFold_zero (σ : StructStorage) (addr : Addr) (key : List Nat) (is : List Nat)
    (h : ∀ i ∈ is, (σ.slots addr (SlotKey.payload i key)).length ≤ 32) :
    is.foldl (getPayloadStep σ addr key 0) [] = [] := by
  induction is with
  | nil => rfl
  | cons i is ih =>
    rw [List.foldl_cons, getPayloadStep_zero σ addr key i (h i (List.mem_cons_self _ _))]
    exact ih (fun j hj => h j (List.mem_cons_of_mem _ hj))

/-! ## Claim theorems -/

set_option maxHeartbeats 2000000 in
/-- **C1**: For every AssetToTimeLock call with sender ≠ recipient at parent
time `ts` (whose decoded parameter passes its structural check and whose
required TimeLock `(max(start,ts), end, value)` is valid): if the sender's
balance in the asset is below `value` the call fails with the not-enough-asset
error and leaves the state unchanged; otherwise it debits the sender's balance
by `value`, credits the recipient's time-lock balance with exactly the
required TimeLock, credits the sender's time-lock balance with exactly the
surplus `{(ts,∞,value)} − {(max(start,ts),end,value)}`, and touches nothing
else.  In particular scenario S1 (balance 100, amount 40, start 1000,
end 2000, ts 500) yields balance 60, sender lock
`{(500,999,40),(2001,∞,40)}`, recipient lock `{(1000,2000,40)}`. -/
theorem claim_C1_assetToTimeLock :
    (∀ (env : FsnEnv) (height ts now sender : Nat) (st : FsnState) (p : TimeLockParam),
      p.typ = TimeLockType.assetToTimeLock →
      sender ≠ p.toAddr →
      env.timeLockCheck height ts p = true →
      tlIsValid (tlSingle (max p.startTime ts) p.endTime p.value) = true →
      (let r := handleFsnCall env height ts now sender st (.timeLock p)
       let needValue := tlSingle (max p.startTime ts) p.endTime p.value
       if st.balances sender p.assetID < p.value then
         r = (st, .error "not enough asset")
       else
         r.2 = .ok () ∧
         r.1.balances sender p.assetID = st.balances sender p.assetID - p.value ∧
         (∀ a i, ¬ (a = sender ∧ i = p.assetID) → r.1.balances a i = st.balances a i) ∧
         (∀ t, ts ≤ t →
           tlValueAt (r.1.timeLocks p.toAddr p.assetID) t =
             tlValueAt (st.timeLocks p.toAddr p.assetID) t + tlValueAt needValue t) ∧
         (∀ t, ts ≤ t →
           tlValueAt (r.1.timeLocks sender p.assetID) t =
             tlValueAt (st.timeLocks sender p.assetID) t +
               (tlValueAt (tlSingle ts TimeLockForever p.value) t - tlValueAt needValue t)) ∧
         (∀ a i, ¬ (i = p.assetID ∧ (a = sender ∨ a = p.toAddr)) →
           r.1.timeLocks a i = st.timeLocks a i))) ∧
    ((handleFsnCall wEnv 5 500 0 10 s1State
        (.timeLock ⟨.assetToTimeLock, SystemAssetID, 20, 1000, 2000, 40⟩)).2 = .ok () ∧
      (handleFsnCall wEnv 5 500 0 10 s1State
        (.timeLock ⟨.assetToTimeLock, SystemAssetID, 20, 1000, 2000, 40⟩)).1.balances 10
        SystemAssetID = 60 ∧
      (handleFsnCall wEnv 5 500 0 10 s1State
        (.timeLock ⟨.assetToTimeLock, SystemAssetID, 20, 1000, 2000, 40⟩)).1.timeLocks 10
        SystemAssetID = [⟨500, 999, 40⟩, ⟨2001, TimeLockForever, 40⟩] ∧
      (handleFsnCall wEnv 5 500 0 10 s1State
        (.timeLock ⟨.assetToTimeLock, SystemAssetID, 20, 1000, 2000, 40⟩)).1.timeLocks 20
        SystemAssetID = [⟨1000, 2000, 40⟩]) := by
  constructor
  · intro env height ts now sender st p htyp hne hcheck hvalid
    rw [handleFsnCall_assetToTimeLock env height ts now sender st p htyp hcheck hvalid]
    by_cases hbal : st.balances sender p.assetID < p.value
    · rw [if_pos hbal]
      simp only [if_pos hbal]
    · rw [if_neg hbal]
      simp only [if_neg hbal]
      rw [if_neg hne]
      refine ⟨rfl, ?_, ?_, ?_, ?_, ?_⟩
      · rw [addTimeLockBalance_balances]
        by_cases hs : ¬ tlIsEmpty (tlSub (tlSingle ts TimeLockForever p.value)
            (tlSingle (max p.startTime ts) p.endTime p.value))
        · rw [if_pos hs, addTimeLockBalance_balances, subBalance_self]
        · rw [if_neg hs, subBalance_self]
      · intro a i hai
        rw [addTimeLockBalance_balances]
        by_cases hs : ¬ tlIsEmpty (tlSub (tlSingle ts TimeLockForever p.value)
            (tlSingle (max p.startTime ts) p.endTime p.value))
        · rw [if_pos hs, addTimeLockBalance_balances, subBalance_frame _ _ hai]
        · rw [if_neg hs, subBalance_frame _ _ hai]
      · intro t hts
        rw [addTimeLockBalance_valueAt _ _ _ _ hts]
        congr 1
        by_cases hs : ¬ tlIsEmpty (tlSub (tlSingle ts TimeLockForever p.value)
            (tlSingle (max p.startTime ts) p.endTime p.value))
        · rw [if_pos hs,
            addTimeLockBalance_frame _ _ _ (by rintro ⟨rfl, -⟩; exact hne rfl)]
          rw [show (st.subBalance sender p.assetID p.value).timeLocks = st.timeLocks from rfl]
        · rw [if_neg hs]
          rw [show (st.subBalance sender p.assetID p.value).timeLocks = st.timeLocks from rfl]
      · intro t hts
        rw [addTimeLockBalance_frame _ _ _ (by rintro ⟨rfl, -⟩; exact hne rfl)]
        by_cases hs : ¬ tlIsEmpty (tlSub (tlSingle ts TimeLockForever p.value)
            (tlSingle (max p.startTime ts) p.endTime p.value))
        · rw [if_pos hs, addTimeLockBalance_valueAt _ _ _ _ hts,
            show (st.subBalance sender p.assetID p.value).timeLocks = st.timeLocks from rfl,
            tlSub_valueAt]
        · rw [if_neg hs,
            show (st.subBalance sender p.assetID p.value).timeLocks = st.timeLocks from rfl]
          push_neg at hs
          have h0 := tlIsEmpty_valueAt hs t
          rw [tlSub_valueAt] at h0
          omega
      · intro a i hai
        rw [addTimeLockBalance_frame _ _ _ (by tauto)]
        by_cases hs : ¬ tlIsEmpty (tlSub (tlSingle ts TimeLockForever p.value)
            (tlSingle (max p.startTime ts) p.endTime p.value))
        · rw [if_pos hs, addTimeLockBalance_frame _ _ _ (by tauto)]
          rfl
        · rw [if_neg hs]
          rfl
  · refine ⟨by decide, by decide, by decide, by decide⟩

set_option maxHeartbeats 2000000 in
/-- Witness for C1: the general statement instantiated at scenario S1. -/
theorem claim_C1_assetToTimeLock_witness :
    (let r := handleFsnCall wEnv 5 500 0 10 s1State
      (.timeLock ⟨.assetToTimeLock, SystemAssetID, 20, 1000, 2000, 40⟩)
     let needValue := tlSingle (max 1000 500) 2000 40
     if s1State.balances 10 SystemAssetID < 40 then
       r = (s1State, .error "not enough asset")
     else
       r.2 = .ok () ∧
       r.1.balances 10 SystemAssetID = s1State.balances 10 SystemAssetID - 40 ∧
       (∀ a i, ¬ (a = 10 ∧ i = SystemAssetID) → r.1.balances a i = s1State.balances a i) ∧
       (∀ t, 500 ≤ t →
         tlValueAt (r.1.timeLocks 20 SystemAssetID) t =
           tlValueAt (s1State.timeLocks 20 SystemAssetID) t + tlValueAt needValue t) ∧
       (∀ t, 500 ≤ t →
         tlValueAt (r.1.timeLocks 10 SystemAssetID) t =
           tlValueAt (s1State.timeLocks 10 SystemAssetID) t +
             (tlValueAt (tlSingle 500 TimeLockForever 40) t - tlValueAt needValue t)) ∧
       (∀ a i, ¬ (i = SystemAssetID ∧ (a = 10 ∨ a = 20)) →
         r.1.timeLocks a i = s1State.timeLocks a i)) :=
  claim_C1_assetToTimeLock.1 wEnv 5 500 0 10 s1State
    ⟨.assetToTimeLock, SystemAssetID, 20, 1000, 2000, 40⟩ rfl (by decide) rfl (by decide)

/-- Reduction of the dispatcher on a BuyTicket call whose ticket id exists. -/
theorem handleFsnCall_buyTicket_exists (env : FsnEnv) (height ts now sender : Nat)
    (st : FsnState) (p : BuyTicketParam)
    (hex : st.isTicketExist (ticketID sender env.parentHash) = true) :
    handleFsnCall env height ts now sender st (.buyTicket p) =
      (st, .error "Ticket already exist") := by
  simp only [handleFsnCall]
  simp [hex]

/-- Reduction of the dispatcher on a fresh BuyTicket call whose parameter
check and required-TimeLock validity pass. -/
theorem handleFsnCall_buyTicket_reduce (env : FsnEnv) (height ts now sender : Nat)
    (st : FsnState) (p : BuyTicketParam)
    (hex : st.isTicketExist (ticketID sender env.parentHash) = false)
    (hcheck : (if env.isHardFork2 height then env.buyTicketCheck height ts p
      else env.buyTicketCheck height 0 p) = true)
    (hvalid : tlIsValid (tlSingle (max p.start ts) p.endTime (env.ticketPrice height)) = true) :
    handleFsnCall env height ts now sender st (.buyTicket p) =
      (let value := env.ticketPrice height
       let needValue := tlSingle (max p.start ts) p.endTime value
       let ticket : Ticket :=
         { owner := sender, id := ticketID sender env.parentHash, height := height
           startTime := p.start, expireTime := p.endTime }
       if ¬ tlGe (st.timeLocks sender SystemAssetID) needValue then
         if st.balances sender SystemAssetID < value then
           (st, .error "not enough time lock or asset balance")
         else
           let st1 := st.subBalance sender SystemAssetID value
           let surplusValue := tlSub (tlSingle ts TimeLockForever value) needValue
           let st2 :=
             if ¬ tlIsEmpty surplusValue then
               st1.addTimeLockBalance sender SystemAssetID surplusValue ts
             else st1
           (st2.addTicket ticket, .ok ())
       else
         ((st.subTimeLockBalance sender SystemAssetID needValue ts).addTicket ticket,
           .ok ())) := by
  simp only [handleFsnCall]
  simp [hex, hcheck, hvalid]

set_option maxHeartbeats 2000000 in
/-- **C2**: For every BuyTicket call at height `h` with parent hash `H` and
parent time `ts`: the ticket id is `Keccak256(sender ‖ H)` (the idealized
pairing `ticketID`) and the call fails when a ticket with that id exists.
Otherwise (parameter check passing, required TimeLock valid): when the
sender's system-asset time-lock balance does not cover
`(max(start,ts), end, TicketPrice(h))`, the call requires plain balance ≥
price, debits it and credits the time-lock surplus
`{(ts,∞,price)} − {(max(start,ts),end,price)}`; when it does cover, the
time-lock balance is debited by the requirement; in both cases the ticket is
appended.  In particular scenario S2 (price 1, balance 5, empty lock,
start 2000, end 5000, ts 1000) yields balance 4, lock
`{(1000,1999,1),(5001,∞,1)}`, and the ticket `Keccak256(owner ‖ H)` exists. -/
theorem claim_C2_buyTicket :
    (∀ (env : FsnEnv) (height ts now sender : Nat) (st : FsnState) (p : BuyTicketParam),
      (let id := ticketID sender env.parentHash
       let value := env.ticketPrice height
       let needValue := tlSingle (max p.start ts) p.endTime value
       let r := handleFsnCall env height ts now sender st (.buyTicket p)
       let ticket : Ticket :=
         { owner := sender, id := id, height := height
           startTime := p.start, expireTime := p.endTime }
       (st.isTicketExist id = true → r = (st, .error "Ticket already exist")) ∧
       (st.isTicketExist id = false →
        (if env.isHardFork2 height then env.buyTicketCheck height ts p
          else env.buyTicketCheck height 0 p) = true →
        tlIsValid needValue = true →
        if ¬ tlGe (st.timeLocks sender SystemAssetID) needValue then
          if st.balances sender SystemAssetID < value then
            r = (st, .error "not enough time lock or asset balance")
          else
            r.2 = .ok () ∧
            r.1.balances sender SystemAssetID = st.balances sender SystemAssetID - value ∧
            (∀ a i, ¬ (a = sender ∧ i = SystemAssetID) → r.1.balances a i = st.balances a i) ∧
            (∀ t, ts ≤ t →
              tlValueAt (r.1.timeLocks sender SystemAssetID) t =
                tlValueAt (st.timeLocks sender SystemAssetID) t +
                  (tlValueAt (tlSingle ts TimeLockForever value) t - tlValueAt needValue t)) ∧
            r.1.tickets = st.tickets ++ [ticket]
        else
          r.2 = .ok () ∧
          r.1.balances = st.balances ∧
          (∀ t, ts ≤ t →
            tlValueAt (r.1.timeLocks sender SystemAssetID) t =
              tlValueAt (st.timeLocks sender SystemAssetID) t - tlValueAt needValue t) ∧
          r.1.tickets = st.tickets ++ [ticket]))) ∧
    ((handleFsnCall wEnv 7 1000 0 10 s2State (.buyTicket ⟨2000, 5000⟩)).2 = .ok () ∧
      (handleFsnCall wEnv 7 1000 0 10 s2State (.buyTicket ⟨2000, 5000⟩)).1.balances 10
        SystemAssetID = 4 ∧
      (handleFsnCall wEnv 7 1000 0 10 s2State (.buyTicket ⟨2000, 5000⟩)).1.timeLocks 10
        SystemAssetID = [⟨1000, 1999, 1⟩, ⟨5001, TimeLockForever, 1⟩] ∧
      (handleFsnCall wEnv 7 1000 0 10 s2State
        (.buyTicket ⟨2000, 5000⟩)).1.isTicketExist (ticketID 10 wEnv.parentHash) = true) := by
  constructor
  · intro env height ts now sender st p
    refine ⟨?_, ?_⟩
    · intro hex
      rw [handleFsnCall_buyTicket_exists env height ts now sender st p hex]
    · intro hex hcheck hvalid
      rw [handleFsnCall_buyTicket_reduce env height ts now sender st p hex hcheck hvalid]
      by_cases hge : ¬ tlGe (st.timeLocks sender SystemAssetID)
          (tlSingle (max p.start ts) p.endTime (env.ticketPrice height))
      · simp only [if_pos hge]
        by_cases hbal : st.balances sender SystemAssetID < env.ticketPrice height
        · simp only [if_pos hbal]
        · simp only [if_neg hbal]
          refine ⟨trivial, ?_, ?_, ?_, ?_⟩
          · rw [addTicket_balances]
            by_cases hs : ¬ tlIsEmpty (tlSub
                (tlSingle ts TimeLockForever (env.ticketPrice height))
                (tlSingle (max p.start ts) p.endTime (env.ticketPrice height)))
            · rw [if_pos hs, addTimeLockBalance_balances, subBalance_self]
            · rw [if_neg hs, subBalance_self]
          · intro a i hai
            rw [addTicket_balances]
            by_cases hs : ¬ tlIsEmpty (tlSub
                (tlSingle ts TimeLockForever (env.ticketPrice height))
                (tlSingle (max p.start ts) p.endTime (env.ticketPrice height)))
            · rw [if_pos hs, addTimeLockBalance_balances, subBalance_frame _ _ hai]
            · rw [if_neg hs, subBalance_frame _ _ hai]
          · intro t hts
            rw [addTicket_timeLocks]
            by_cases hs : ¬ tlIsEmpty (tlSub
                (tlSingle ts TimeLockForever (env.ticketPrice height))
                (tlSingle (max p.start ts) p.endTime (env.ticketPrice height)))
            · rw [if_pos hs, addTimeLockBalance_valueAt _ _ _ _ hts,
                show (st.subBalance sender SystemAssetID
                  (env.ticketPrice height)).timeLocks = st.timeLocks from rfl,
                tlSub_valueAt]
            · rw [if_neg hs,
                show (st.subBalance sender SystemAssetID
                  (env.ticketPrice height)).timeLocks = st.timeLocks from rfl]
              push_neg at hs
              have h0 := tlIsEmpty_valueAt hs t
              rw [tlSub_valueAt] at h0
              omega
          · rw [addTicket_tickets]
            congr 1
            by_cases hs : ¬ tlIsEmpty (tlSub
                (tlSingle ts TimeLockForever (env.ticketPrice height))
                (tlSingle (max p.start ts) p.endTime (env.ticketPrice height)))
            · rw [if_pos hs, addTimeLockBalance_tickets, subBalance_tickets]
            · rw [if_neg hs, subBalance_tickets]
      · simp only [if_neg hge]
        refine ⟨trivial, ?_, ?_, ?_⟩
        · rw [addTicket_balances, subTimeLockBalance_balances]
        · intro t hts
          rw [addTicket_timeLocks, subTimeLockBalance_valueAt _ _ _ _ hts]
        · rw [addTicket_tickets, subTimeLockBalance_tickets]
  · refine ⟨by decide, by decide, by decide, by decide⟩

set_option maxHeartbeats 2000000 in
/-- Witness for C2: the general statement instantiated at scenario S2 shows
the appended ticket with id `Keccak256(owner ‖ H)`. -/
theorem claim_C2_buyTicket_witness :
    (handleFsnCall wEnv 7 1000 0 10 s2State (.buyTicket ⟨2000, 5000⟩)).1.tickets =
      s2State.tickets ++
        [{ owner := 10, id := ticketID 10 wEnv.parentHash, height := 7
           startTime := 2000, expireTime := 5000 }] := by
  have h := (claim_C2_buyTicket.1 wEnv 7 1000 0 10 s2State ⟨2000, 5000⟩).2
    (by decide) (by decide) (by decide)
  rw [if_pos (by decide), if_neg (by decide)] at h
  exact h.2.2.2.2

theorem subBalance_swaps (st : FsnState) (addr : Addr) (asset : AssetID) (v : Nat) :
    (st.subBalance addr asset v).swaps = st.swaps := rfl

theorem addTimeLockBalance_swaps (st : FsnState) (addr : Addr) (asset : AssetID)
    (amount : TimeLock) (ts : Nat) :
    (st.addTimeLockBalance addr asset amount ts).swaps = st.swaps := by
  unfold FsnState.addTimeLockBalance
  by_cases he : tlIsEmpty amount
  · rw [if_pos he]
  · rw [if_neg he]

theorem subTimeLockBalance_swaps (st : FsnState) (addr : Addr) (asset : AssetID)
    (amount : TimeLock) (ts : Nat) :
    (st.subTimeLockBalance addr asset amount ts).swaps = st.swaps := by
  unfold FsnState.subTimeLockBalance
  by_cases he : tlIsEmpty amount
  · rw [if_pos he]
  · rw [if_neg he]

theorem getSwap_none {st : FsnState} {id : HashV} (h : st.swaps id = none) :
    st.getSwap id = .error "swap not found" := by
  unfold FsnState.getSwap
  rw [h]

theorem getAsset_some {st : FsnState} {id : AssetID} {a : Asset}
    (h : st.assets id = some a) : st.getAsset id = .ok a := by
  unfold FsnState.getAsset
  rw [h]

theorem mkSwapRecord_id (id : HashV) (o : Addr) (p : MakeSwapParam) (n : Nat) :
    (mkSwapRecord id o p n).id = id := rfl

theorem addSwap_of_none {st : FsnState} {s : Swap} (h : st.swaps s.id = none) :
    st.addSwap s = .ok { st with swaps := fun i => if i = s.id then some s else st.swaps i } := by
  unfold FsnState.addSwap
  rw [h]

/-- Reduction of the dispatcher on a MakeSwap / MakeSwapFuncExt call of a
non-USAN asset with a fresh swap id, passing checks, a From interval other
than `[now,∞)`, and a time-lock balance that does not cover the requirement. -/
theorem handleFsnCall_makeSwap_reduce (env : FsnEnv) (height ts now sender : Nat)
    (st : FsnState) (isExt : Bool) (p : MakeSwapParam) (A : Asset)
    (husan : p.fromAssetID ≠ OwnerUSANAssetID)
    (hswap : st.swaps env.uniqueHash = none)
    (hcheck : env.makeSwapCheck height ts p = true)
    (hasset : st.assets p.toAssetID = some A)
    (hnotwhole : ¬ (p.fromStartTime = TimeLockNow ∧ p.fromEndTime = TimeLockForever))
    (hvalid : tlIsValid (tlSingle (max p.fromStartTime ts) p.fromEndTime
      (p.minFromAmount * p.swapSize)) = true)
    (hge : tlGe (st.timeLocks sender p.fromAssetID)
      (tlSingle (max p.fromStartTime ts) p.fromEndTime (p.minFromAmount * p.swapSize)) = false) :
    handleFsnCall env height ts now sender st (.makeSwap isExt p) =
      (let total := p.minFromAmount * p.swapSize
       let needValue := tlSingle (max p.fromStartTime ts) p.fromEndTime total
       let swap := mkSwapRecord env.uniqueHash sender p (st.notations sender)
       if isExt = false then (st, .error "not enough time lock balance")
       else if st.balances sender p.fromAssetID < total then
         (st, .error "not enough time lock or asset balance")
       else
         let st2 := (st.subBalance sender p.fromAssetID total).addTimeLockBalance sender
           p.fromAssetID (tlSingle ts TimeLockForever total) ts
         let st3 :=
           { st2 with swaps := fun i => if i = env.uniqueHash then some swap else st2.swaps i }
         (st3.subTimeLockBalance sender p.fromAssetID needValue ts, .ok ())) := by
  simp only [handleFsnCall]
  rw [getSwap_none hswap, getAsset_some hasset]
  rw [if_neg husan]
  by_cases hext : isExt
  · subst hext
    by_cases hbal : st.balances sender p.fromAssetID < p.minFromAmount * p.swapSize
    · simp [hcheck, hvalid, hge, hnotwhole, hbal]
    · have hfresh : ((st.subBalance sender p.fromAssetID
          (p.minFromAmount * p.swapSize)).addTimeLockBalance sender p.fromAssetID
          (tlSingle ts TimeLockForever (p.minFromAmount * p.swapSize)) ts).swaps
            (mkSwapRecord env.uniqueHash sender p (st.notations sender)).id = none := by
        rw [mkSwapRecord_id, addTimeLockBalance_swaps, subBalance_swaps]
        exact hswap
      simp [hcheck, hvalid, hge, hnotwhole, hbal, addSwap_of_none hfresh, mkSwapRecord_id]
  · have hext' : isExt = false := by
      cases isExt
      · rfl
      · exact absurd rfl hext
    subst hext'
    simp [hcheck, hvalid, hge, hnotwhole]

set_option maxHeartbeats 2000000 in
/-- **C3**: For a MakeSwap-style call whose From interval is not `[now,∞)` and
whose time-lock balance in the From asset does not cover
`(max(FromStart,ts), FromEnd, MinFromAmount*SwapSize)` (with a fresh swap id,
passing checks, registered To asset, non-USAN From asset): the legacy
`MakeSwap` errors with the not-enough-time-lock-balance message and changes
nothing, while `MakeSwapFuncExt` with plain balance ≥ the total succeeds —
it debits the plain balance, converts it to `{(ts,∞,total)}`, debits the
required time lock (leaving the surplus on the sender) and records the swap.
Scenario S3 instantiates both halves. -/
theorem claim_C3_makeSwap_legacy_vs_ext :
    (∀ (env : FsnEnv) (height ts now sender : Nat) (st : FsnState) (p : MakeSwapParam)
      (A : Asset),
      p.fromAssetID ≠ OwnerUSANAssetID →
      st.swaps env.uniqueHash = none →
      env.makeSwapCheck height ts p = true →
      st.assets p.toAssetID = some A →
      ¬ (p.fromStartTime = TimeLockNow ∧ p.fromEndTime = TimeLockForever) →
      tlIsValid (tlSingle (max p.fromStartTime ts) p.fromEndTime
        (p.minFromAmount * p.swapSize)) = true →
      tlGe (st.timeLocks sender p.fromAssetID)
        (tlSingle (max p.fromStartTime ts) p.fromEndTime
          (p.minFromAmount * p.swapSize)) = false →
      (handleFsnCall env height ts now sender st (.makeSwap false p) =
        (st, .error "not enough time lock balance")) ∧
      (¬ st.balances sender p.fromAssetID < p.minFromAmount * p.swapSize →
        (let total := p.minFromAmount * p.swapSize
         let needValue := tlSingle (max p.fromStartTime ts) p.fromEndTime total
         let r := handleFsnCall env height ts now sender st (.makeSwap true p)
         r.2 = .ok () ∧
         r.1.balances sender p.fromAssetID = st.balances sender p.fromAssetID - total ∧
         (∀ t, ts ≤ t →
           tlValueAt (r.1.timeLocks sender p.fromAssetID) t =
             (tlValueAt (st.timeLocks sender p.fromAssetID) t +
               tlValueAt (tlSingle ts TimeLockForever total) t) - tlValueAt needValue t) ∧
         r.1.swaps env.uniqueHash =
           some (mkSwapRecord env.uniqueHash sender p (st.notations sender))))) ∧
    ((handleFsnCall wEnv 9 1000 0 10 s3State (.makeSwap false s3Param)).2 =
        .error "not enough time lock balance" ∧
      (handleFsnCall wEnv 9 1000 0 10 s3State (.makeSwap false s3Param)).1.balances 10 5 = 50 ∧
      (handleFsnCall wEnv 9 1000 0 10 s3State (.makeSwap true s3Param)).2 = .ok () ∧
      (handleFsnCall wEnv 9 1000 0 10 s3State (.makeSwap true s3Param)).1.balances 10 5 = 30 ∧
      (handleFsnCall wEnv 9 1000 0 10 s3State (.makeSwap true s3Param)).1.timeLocks 10 5 =
        [⟨1000, 2999, 20⟩, ⟨9001, TimeLockForever, 20⟩] ∧
      ((handleFsnCall wEnv 9 1000 0 10 s3State (.makeSwap true s3Param)).1.swaps
        wEnv.uniqueHash).isSome = true) := by
  constructor
  · intro env height ts now sender st p A husan hswap hcheck hasset hnotwhole hvalid hge
    constructor
    · rw [handleFsnCall_makeSwap_reduce env height ts now sender st false p A husan hswap
        hcheck hasset hnotwhole hvalid hge]
      simp
    · intro hbal
      rw [handleFsnCall_makeSwap_reduce env height ts now sender st true p A husan hswap
        hcheck hasset hnotwhole hvalid hge]
      simp only [Bool.true_eq_false, if_false, if_neg hbal]
      refine ⟨trivial, ?_, ?_, ?_⟩
      · rw [subTimeLockBalance_balances]
        show ((st.subBalance sender p.fromAssetID
            (p.minFromAmount * p.swapSize)).addTimeLockBalance sender p.fromAssetID
            (tlSingle ts TimeLockForever (p.minFromAmount * p.swapSize)) ts).balances
            sender p.fromAssetID = _
        rw [addTimeLockBalance_balances, subBalance_self]
      · intro t hts
        rw [subTimeLockBalance_valueAt _ _ _ _ hts]
        congr 1
        show tlValueAt (((st.subBalance sender p.fromAssetID
            (p.minFromAmount * p.swapSize)).addTimeLockBalance sender p.fromAssetID
            (tlSingle ts TimeLockForever (p.minFromAmount * p.swapSize)) ts).timeLocks
            sender p.fromAssetID) t = _
        rw [addTimeLockBalance_valueAt _ _ _ _ hts,
          show (st.subBalance sender p.fromAssetID
            (p.minFromAmount * p.swapSize)).timeLocks = st.timeLocks from rfl]
      · rw [subTimeLockBalance_swaps]
        show (if env.uniqueHash = env.uniqueHash then _ else _) = _
        rw [if_pos rfl]
  · refine ⟨by decide, by decide, by decide, by decide, by decide, by decide⟩

set_option maxHeartbeats 2000000 in
/-- Witness for C3: the general statement instantiated at scenario S3. -/
theorem claim_C3_makeSwap_witness :
    (handleFsnCall wEnv 9 1000 0 10 s3State (.makeSwap true s3Param)).1.swaps
        wEnv.uniqueHash =
      some (mkSwapRecord wEnv.uniqueHash 10 s3Param (s3State.notations 10)) := by
  have h := (claim_C3_makeSwap_legacy_vs_ext.1 wEnv 9 1000 0 10 s3State s3Param
    ⟨6, 99, 1000, false⟩ (by decide) rfl rfl (by decide) (by decide) (by decide)
    (by decide)).2 (by decide)
  exact h.2.2.2

/-- State for the C4 counterexample: the sender holds a whole-line time lock
of asset 5 covering any requirement. -/
def c4State : FsnState :=
  { emptyFsnState with
      timeLocks := fun a i => if a = 10 ∧ i = 5 then [⟨0, TimeLockForever, 100⟩] else [] }

/-- A TimeLockToAsset call with start time 1000. -/
def c4Call : FsnCall := .timeLock ⟨.timeLockToAsset, 5, 20, 1000, 2000, 40⟩

set_option maxHeartbeats 1000000 in
/-- **C4 (counterexample)**: the dispatcher is *not* independent of the local
clock: the same TimeLockToAsset call, at the same state, height and parent
time 800, errors when the wall clock reads 900 but succeeds (mutating the
state) when it reads 1100 — `handleFsnCall` consults `time.Now()` in the
TimeLockToAsset start-time check. -/
theorem claim_C4_counterexample :
    (handleFsnCall wEnv 9 800 900 10 c4State c4Call).2 =
        .error "Start time must be less than now" ∧
      (handleFsnCall wEnv 9 800 1100 10 c4State c4Call).2 = .ok () ∧
      (handleFsnCall wEnv 9 800 900 10 c4State c4Call).2 ≠
        (handleFsnCall wEnv 9 800 1100 10 c4State c4Call).2 ∧
      (handleFsnCall wEnv 9 800 900 10 c4State c4Call).1.balances 20 5 ≠
        (handleFsnCall wEnv 9 800 1100 10 c4State c4Call).1.balances 20 5 := by
  refine ⟨by decide, by decide, by decide, by decide⟩

/-- **C4 (amended)**: the dispatcher is a pure function of
`(state, sender, call, height, parent-time)` plus the wall clock, and for
every decoded FSN call other than a TimeLock call of type TimeLockToAsset the
wall clock is irrelevant: two executions under different local clocks yield
identical post-states and identical results.  (The TimeLockToAsset start-time
check, fsn source `handleFsnCall`, is the only wall-clock read.) -/
theorem claim_C4_amended :
    ∀ (env : FsnEnv) (height ts now₁ now₂ sender : Nat) (st : FsnState) (call : FsnCall),
      (∀ p, call = .timeLock p → p.typ ≠ TimeLockType.timeLockToAsset) →
      handleFsnCall env height ts now₁ sender st call =
        handleFsnCall env height ts now₂ sender st call := by
  intro env height ts n₁ n₂ sender st call h
  cases call
  case timeLock p =>
    have hp := h p rfl
    simp only [handleFsnCall]
    rw [if_neg (show ¬ (p.typ = TimeLockType.timeLockToAsset ∧ p.startTime > n₁) from
        fun hc => hp hc.1),
      if_neg (show ¬ (p.typ = TimeLockType.timeLockToAsset ∧ p.startTime > n₂) from
        fun hc => hp hc.1)]
  all_goals rfl

/-- Witness for the amended C4: a SendAsset call run under wall clocks 0 and
999 gives identical outcomes. -/
theorem claim_C4_amended_witness :
    handleFsnCall wEnv 9 800 0 10 emptyFsnState (.sendAsset ⟨5, 20, 7⟩) =
      handleFsnCall wEnv 9 800 999 10 emptyFsnState (.sendAsset ⟨5, 20, 7⟩) :=
  claim_C4_amended wEnv 9 800 0 999 10 emptyFsnState (.sendAsset ⟨5, 20, 7⟩)
    (fun _ hp => FsnCall.noConfusion hp)

theorem getD_set_self {α : Type} :
    ∀ (l : List α) (r : Nat) (x d : α), r < l.length → (l.set r x).getD r d = x
  | [], r, _, _, h => absurd h (by simp)
  | a :: l, 0, x, d, _ => rfl
  | a :: l, r + 1, x, d, h =>
    getD_set_self l r x d (by simpa using h)

/-- A heap state for C6: one account holding asset 9 with the stored time lock
`{(1,5,7)}` in heap cell 0. -/
def c6State : TLHeapState :=
  { heap := [[⟨1, 5, 7⟩]]
    account := { timeLockBalancesHash := [9], timeLockBalancesVal := [0] } }

/-- **C6 (counterexample)**: `GetTimeLockBalance` does *not* return a clone:
`stateObject.TimeLockBalance` returns the stored pointer, so calling `Add`
through the returned TimeLock changes the balance stored in the state. -/
theorem claim_C6_counterexample :
    (readTimeLockBalance c6State 9).1 = [⟨1, 5, 7⟩] ∧
      (readTimeLockBalance
        (mutateThroughRef c6State (getTimeLockBalanceRef c6State 9).1 [⟨10, 20, 3⟩]) 9).1 ≠
        (readTimeLockBalance c6State 9).1 := by
  refine ⟨by decide, by decide⟩

/-- **C6 (amended)**: the TimeLock returned by `GetTimeLockBalance` for a
present asset column is an alias of the stored value: writing through the
returned reference (as `z.Add(z, y)` does) makes every subsequent read of the
stored balance see the mutation.  Callers needing isolation must `Clone`
explicitly, as the multi-swap paths do. -/
theorem claim_C6_amended :
    ∀ (st : TLHeapState) (asset : AssetID) (i r : Nat) (y : TimeLock),
      st.account.timeLockBalancesHash.indexOf? asset = some i →
      st.account.timeLockBalancesVal.getD i 0 = r →
      r < st.heap.length →
      (getTimeLockBalanceRef st asset).1 = r ∧
      (readTimeLockBalance (mutateThroughRef st r y) asset).1 =
        tlAdd ((readTimeLockBalance st asset).1) y := by
  intro st asset i r y hidx href hlen
  have key : ∀ s : TLHeapState, s.account = st.account →
      (readTimeLockBalance s asset).1 = s.heap.getD r [] := by
    intro s hs
    unfold readTimeLockBalance getTimeLockBalanceRef tlAssetIndex
    rw [hs, hidx]
    dsimp only
    rw [hs, href]
  constructor
  · unfold getTimeLockBalanceRef tlAssetIndex
    rw [hidx]
    dsimp only
    exact href
  · rw [key (mutateThroughRef st r y) rfl, key st rfl]
    show (st.heap.set r (tlAdd (st.heap.getD r []) y)).getD r [] = _
    exact getD_set_self _ _ _ _ hlen

/-- Witness for the amended C6, at the concrete one-cell heap state. -/
theorem claim_C6_amended_witness :
    (getTimeLockBalanceRef c6State 9).1 = 0 ∧
      (readTimeLockBalance (mutateThroughRef c6State 0 [⟨10, 20, 3⟩]) 9).1 =
        tlAdd ((readTimeLockBalance c6State 9).1) [⟨10, 20, 3⟩] :=
  claim_C6_amended c6State 9 0 0 [⟨10, 20, 3⟩] (by decide) (by decide) (by decide)

/-- The ring cache after adding 101 entries with the distinct non-zero hashes
1..101 (payload `[h]` for hash `h`). -/
def c7Full : CachedTicketSlice :=
  (List.range 101).foldl (fun cts k => cts.add (k + 1) [k + 1]) emptyCachedTicketSlice

set_option maxRecDepth 100000 in
set_option maxHeartbeats 4000000 in
/-- **C7 (counterexample)**: after `Add` of 101 entries with distinct non-zero
hashes, the first inserted entry is no longer retrievable: the 101-slot ring
keeps one slot unused, so its capacity is 100 and the 101st insertion evicts
the oldest entry. -/
theorem claim_C7_counterexample : c7Full.get 1 = none := by decide

set_option maxRecDepth 100000 in
set_option maxHeartbeats 8000000 in
/-- **C7 (amended)**: the ring buffer has a 101-slot array but holds at most
100 entries.  After adding 101 distinct non-zero hashes 1..101: the 100 most
recent (2..101) are all retrievable, the oldest (1) was evicted; re-adding a
present hash (2) is a no-op; and adding one more entry (102) evicts exactly
the then-oldest entry (2), keeping 3..102 (FIFO eviction). -/
theorem claim_C7_amended :
    ((List.range 100).all fun k => c7Full.get (k + 2) == some [k + 2]) = true ∧
      c7Full.get 1 = none ∧
      c7Full.add 2 [999] = c7Full ∧
      (c7Full.add 102 [102]).get 2 = none ∧
      ((List.range 99).all fun k =>
        (c7Full.add 102 [102]).get (k + 3) == some [k + 3]) = true ∧
      (c7Full.add 102 [102]).get 102 = some [102] := by
  refine ⟨by decide, by decide, by decide, by decide, by decide, by decide⟩

/-- **C8 (counterexample)**: `CalcNotationDisplay(0) = 0`, while the claimed
formula gives `(0 XOR 8192 XOR 13) mod 100 = 5`: the zero ("unassigned")
notation is special-cased. -/
theorem claim_C8_counterexample :
    calcNotationDisplay 0 = 0 ∧
      0 * 100 + (((0 ^^^ 8192) ^^^ 13) % 100) = 5 ∧
      calcNotationDisplay 0 ≠ 0 * 100 + (((0 ^^^ 8192) ^^^ 13) % 100) := by
  refine ⟨by decide, by decide, by decide⟩

/-- **C8 (amended)**: for every *nonzero* uint64 notation `n`,
`CalcNotationDisplay(n) = (n*100 + ((n XOR 8192 XOR 13) mod 100)) mod 2^64`;
when `n*100 + check` does not overflow, the display validates via
`display % 100 = (n XOR 8192 XOR 13) % 100` and `n` is recovered as
`display / 100`. -/
theorem claim_C8_amended :
    ∀ n : Nat, 0 < n → n < 2 ^ 64 →
      calcNotationDisplay n = (n * 100 + (((n ^^^ 8192) ^^^ 13) % 100)) % 2 ^ 64 ∧
      (n * 100 + (((n ^^^ 8192) ^^^ 13) % 100) < 2 ^ 64 →
        calcNotationDisplay n % 100 = ((n ^^^ 8192) ^^^ 13) % 100 ∧
        calcNotationDisplay n / 100 = n) := by
  intro n hn hlt
  unfold calcNotationDisplay
  rw [if_neg (by omega)]
  refine ⟨rfl, ?_⟩
  intro hov
  rw [Nat.mod_eq_of_lt hov]
  have hc : ((n ^^^ 8192) ^^^ 13) % 100 < 100 := Nat.mod_lt _ (by norm_num)
  constructor
  · omega
  · omega

/-- Witness for the amended C8 at `n = 1` (display 104). -/
theorem claim_C8_amended_witness :
    calcNotationDisplay 1 = (1 * 100 + (((1 ^^^ 8192) ^^^ 13) % 100)) % 2 ^ 64 ∧
      (1 * 100 + (((1 ^^^ 8192) ^^^ 13) % 100) < 2 ^ 64 →
        calcNotationDisplay 1 % 100 = ((1 ^^^ 8192) ^^^ 13) % 100 ∧
        calcNotationDisplay 1 / 100 = 1) :=
  claim_C8_amended 1 (by decide) (by decide)

/-- **C10**: the public StateDB read accessors are total on absent accounts:
`GetBalance` returns 0, `GetTimeLockBalance` the empty TimeLock, `GetNotation`
0 and `GetAllBalances` the empty map — without error and without creating an
account (the state is returned unchanged: these reads use `getStateObject`,
not `GetOrNewStateObject`). -/
theorem claim_C10_absent_reads :
    ∀ (st : StateDB10) (addr : Addr) (asset : AssetID),
      st.objects addr = none →
      st.getBalance asset addr = (0, st) ∧
      st.getTimeLockBalance asset addr = ([], st) ∧
      st.getNotationValue addr = 0 ∧
      st.getAllBalances addr = [] := by
  intro st addr asset h
  unfold StateDB10.getBalance StateDB10.getTimeLockBalance StateDB10.getNotationValue
    StateDB10.getAllBalances
  rw [h]
  exact ⟨rfl, rfl, rfl, rfl⟩

/-- A state with one account at address 5 (absent everywhere else). -/
def c10State : StateDB10 :=
  { objects := fun a =>
      if a = 5 then some ⟨[1], [42], [1], [[⟨1, 2, 3⟩]], 7⟩ else none }

/-- Witness for C10: reads of the absent address 99. -/
theorem claim_C10_absent_reads_witness :
    c10State.getBalance 1 99 = (0, c10State) ∧
      c10State.getTimeLockBalance 1 99 = ([], c10State) ∧
      c10State.getNotationValue 99 = 0 ∧
      c10State.getAllBalances 99 = [] :=
  claim_C10_absent_reads c10State 99 1 rfl

/-- The empty structured storage: every slot the zero-length word, every
nonce zero. -/
def σc5 : StructStorage := ⟨fun _ _ => [], fun _ => 0⟩

/-- **C5 (counterexample)**: the structured-storage codec does not round-trip
for every byte string: a value of length `2^32` overflows the 4-byte size
field of the header (`IntToBytes` keeps the low 32 bits), so the stored size
reads back as 0 and `GetStructData` returns the empty string, not the value.
-/
theorem claim_C5_counterexample :
    ¬ (getStructData (setStructData σc5 3 [9, 9] (List.replicate (2 ^ 32) 0)) 3 [9, 9] =
        List.replicate (2 ^ 32) (0 : Nat)) := by
  intro heq
  have hn : (List.replicate (2 ^ 32) (0 : Nat)).length = 2 ^ 32 := List.length_replicate _ _
  have hmain : getStructData (setStructData σc5 3 [9, 9] (List.replicate (2 ^ 32) 0)) 3 [9, 9]
      = [] := by
    simp only [getStructData]
    rw [setStructData_slots_header, structHeaderWord_take4, structHeaderWord_drop16_take4, hn]
    have hs0 : bytesToInt (intToBytes4 (2 ^ 32)) = 0 := by decide
    have hL0 : bytesToInt (intToBytes4 (structSlotCount (2 ^ 32))) = structSlotCount (2 ^ 32) :=
      bytesToInt_intToBytes4 _ (by decide)
    rw [hs0, hL0, List.replicate_zero]
    apply getFold_zero
    intro i hi
    rw [setStructData_slots_payload σc5 3 [9, 9] _ i
      (by rw [hn]; exact List.mem_range.mp hi)]
    exact word32_length_le _ (by rw [List.length_take]; omega)
  rw [hmain] at heq
  have hlen := congrArg List.length heq
  rw [List.length_nil, List.length_replicate] at hlen
  exact absurd hlen.symm (by positivity : 0 < 2 ^ 32).ne'

/-- **C5 (amended)**: for every address, key and value SHORTER THAN `2^32`
bytes, `GetStructData` after `SetStructData` returns exactly the value; the
header word stores the byte size in its first 4 bytes and the slot count
`ceil(size/32)` at offset 16, and payload slot `i` holds the `i`-th 32-byte
chunk, the final partial chunk right-aligned. -/
theorem claim_C5_amended (σ : StructStorage) (addr : Addr) (key value : List Nat)
    (h : value.length < 2 ^ 32) :
    getStructData (setStructData σ addr key value) addr key = value ∧
    (setStructData σ addr key value).slots addr (SlotKey.header key) =
      structHeaderWord value.length (structSlotCount value.length) ∧
    ∀ i, i < structSlotCount value.length →
      (setStructData σ addr key value).slots addr (SlotKey.payload i key) =
        word32 ((value.drop (i * 32)).take (min (i * 32 + 32) value.length - i * 32)) :=
  ⟨getStructData_setStructData σ addr key value h,
   setStructData_slots_header σ addr key value,
   fun i hi => setStructData_slots_payload σ addr key value i hi⟩

/-- Witness for C5: a concrete 70-byte value (three slots, the last partial)
round-trips through the codec. -/
theorem claim_C5_amended_witness :
    (List.range 70).length < 2 ^ 32 ∧
    getStructData (setStructData σc5 3 [9, 9] (List.range 70)) 3 [9, 9] = List.range 70 :=
  ⟨by decide, (claim_C5_amended σc5 3 [9, 9] (List.range 70) (by decide)).1⟩


/-! ## Claim C9: the pool's final balance gate -/

/-- A sender (address 10) with 100 units of asset 5, a time lock of 15 units
of asset 5 over `[1000, 3000]`, and 20 units of the system asset. -/
def c9State : FsnState :=
  { emptyFsnState with
      balances := fun a i =>
        if a = 10 ∧ i = 5 then 100 else if a = 10 ∧ i = SystemAssetID then 20 else 0
      timeLocks := fun a i => if a = 10 ∧ i = 5 then [⟨1000, 3000, 15⟩] else [] }

/-- When the per-function part accepts with value `v`, the validator reduces
to the single final balance gate. -/
theorem validateFsnCallTx_reduce (env : FsnEnv) (currNumber currTime now : Nat)
    (dup : Bool) (sender : Addr) (st : FsnState) (gas gasPrice : Nat) (call : FsnCall)
    (v : Nat) (h : fsnPreCheck env currNumber currTime now dup sender st call = .ok v) :
    validateFsnCallTx env currNumber currTime now dup sender st gas gasPrice call =
      if st.balances sender SystemAssetID <
          gas * gasPrice + env.getFsnCallFee call.tag + v
      then .error "insufficient balance" else .ok () := by
  unfold validateFsnCallTx
  rw [h]

/-- **C9 (counterexample)**: `fsnValue` is *not* always zero when the affected
asset is not the system asset: a SendTimeLock (SmartTransfer) of 40 units of
asset 5 ≠ SystemAssetID, 15 of them covered by the sender's time lock, makes
the pool compute `fsnValue = 40 − 15 = 25` (the `common.SmartTransfer` case
of `validateFsnCallTx` sets `fsnValue = Value − timeLockValue` with no
`AssetID == common.SystemAssetID` guard), and the final gate then rejects a
sender whose system-asset balance of 20 covers gas and fee but not the
25 units of the foreign asset. -/
theorem claim_C9_counterexample :
    (⟨.smartTransfer, 5, 20, 0, 3000, 40⟩ : TimeLockParam).assetID ≠ SystemAssetID ∧
    fsnPreCheck wEnv 100 500 1000 false 10 c9State
      (.timeLock ⟨.smartTransfer, 5, 20, 0, 3000, 40⟩) = .ok 25 ∧
    validateFsnCallTx wEnv 100 500 1000 false 10 c9State 0 0
      (.timeLock ⟨.smartTransfer, 5, 20, 0, 3000, 40⟩) = .error "insufficient balance" := by
  refine ⟨by decide, by decide, by decide⟩

set_option maxHeartbeats 4000000 in
/-- **C9 (amended)**: conditioned on the per-function checks passing with
value `fsnValue`, the pool rejects with an insufficient-balance error iff the
sender's system-asset balance is strictly below
`gas*gasPrice + GetFsnCallFee + fsnValue`, and accepts otherwise; `fsnValue`
is the system-asset amount the call would take from the sender's plain
balance — `value` or `0` for SendAsset by asset, `0` for a non-system-asset
TimeLock of every type EXCEPT SmartTransfer, `0` for a non-system-asset
MakeSwap, `0` or the ticket price for BuyTicket — but for SendTimeLock
(SmartTransfer) it is `Value − spendable-time-lock-value` regardless of the
asset. -/
theorem claim_C9_amended (env : FsnEnv) (currNumber currTime now : Nat)
    (dup : Bool) (sender : Addr) (st : FsnState) (gas gasPrice : Nat) (call : FsnCall)
    (v : Nat) (h : fsnPreCheck env currNumber currTime now dup sender st call = .ok v) :
    (validateFsnCallTx env currNumber currTime now dup sender st gas gasPrice call =
        .error "insufficient balance" ↔
      st.balances sender SystemAssetID <
        gas * gasPrice + env.getFsnCallFee call.tag + v) ∧
    (validateFsnCallTx env currNumber currTime now dup sender st gas gasPrice call = .ok () ↔
      gas * gasPrice + env.getFsnCallFee call.tag + v ≤
        st.balances sender SystemAssetID) ∧
    (∀ p, call = .sendAsset p → v = if p.assetID = SystemAssetID then p.value else 0) ∧
    (∀ p, call = .timeLock p → p.typ ≠ .smartTransfer → p.assetID ≠ SystemAssetID → v = 0) ∧
    (∀ p, call = .timeLock p → p.typ = .smartTransfer →
      v = 0 ∨ v = p.value - tlGetSpendableValue (st.timeLocks sender p.assetID)
        (max p.startTime now) p.endTime) ∧
    (∀ isExt p, call = .makeSwap isExt p → p.fromAssetID ≠ SystemAssetID → v = 0) ∧
    (∀ p, call = .buyTicket p → v = 0 ∨ v = env.ticketPrice BigMaxUint64) := by
  refine ⟨?_, ?_, ?_, ?_, ?_, ?_, ?_⟩
  · rw [validateFsnCallTx_reduce env currNumber currTime now dup sender st gas gasPrice call v h]
    by_cases hb : st.balances sender SystemAssetID <
        gas * gasPrice + env.getFsnCallFee call.tag + v
    · rw [if_pos hb]; exact iff_of_true rfl hb
    · rw [if_neg hb]; exact iff_of_false (fun hx => Except.noConfusion hx) hb
  · rw [validateFsnCallTx_reduce env currNumber currTime now dup sender st gas gasPrice call v h]
    by_cases hb : st.balances sender SystemAssetID <
        gas * gasPrice + env.getFsnCallFee call.tag + v
    · rw [if_pos hb]; exact iff_of_false (fun hx => Except.noConfusion hx) (by omega)
    · rw [if_neg hb]; exact iff_of_true rfl (by omega)
  · intro p hc; subst hc
    simp only [fsnPreCheck] at h
    split_ifs at h with h1 h2 h3 <;>
      first
        | (injection h with hv; rw [if_pos h2]; exact hv.symm)
        | (injection h with hv; rw [if_neg h2]; exact hv.symm)
        | injection h
  · intro p hc hsm hne; subst hc
    obtain ⟨typ, aid, toA, s, e, val⟩ := p
    simp only [fsnPreCheck] at h
    cases typ with
    | assetToTimeLock =>
      split_ifs at h <;>
        first
          | (injection h with hv; exact hv.symm)
          | (exact absurd (by assumption) hne)
          | injection h
    | timeLockToTimeLock =>
      split_ifs at h <;>
        first
          | (injection h with hv; exact hv.symm)
          | injection h
    | timeLockToAsset =>
      split_ifs at h <;>
        first
          | (injection h with hv; exact hv.symm)
          | injection h
    | smartTransfer => exact absurd rfl hsm
  · intro p hc hsm; subst hc
    obtain ⟨typ, aid, toA, s, e, val⟩ := p
    cases typ with
    | assetToTimeLock => exact absurd hsm (by simp)
    | timeLockToTimeLock => exact absurd hsm (by simp)
    | timeLockToAsset => exact absurd hsm (by simp)
    | smartTransfer =>
      simp only [fsnPreCheck] at h
      split_ifs at h <;>
        first
          | (injection h with hv; exact Or.inl hv.symm)
          | (injection h with hv; exact Or.inr hv.symm)
          | contradiction
          | injection h
  · intro isExt p hc hne; subst hc
    simp only [fsnPreCheck] at h
    split at h
    · injection h
    · split_ifs at h <;>
        first
          | (injection h with hv; exact hv.symm)
          | (exact absurd (by assumption) hne)
          | injection h
          | (split at h <;>
              first
                | (injection h with hv; exact hv.symm)
                | (exact absurd (by assumption) hne)
                | injection h)
  · intro p hc; subst hc
    simp only [fsnPreCheck] at h
    split_ifs at h <;>
      first
        | (injection h with hv; exact Or.inl hv.symm)
        | (injection h with hv; exact Or.inr hv.symm)
        | injection h

/-- Witness for C9: the gate iff instantiated at the concrete SmartTransfer
scenario, `fsnValue = 25`. -/
theorem claim_C9_amended_witness :
    fsnPreCheck wEnv 100 500 1000 false 10 c9State
        (.timeLock ⟨.smartTransfer, 5, 20, 0, 3000, 40⟩) = .ok 25 ∧
    (validateFsnCallTx wEnv 100 500 1000 false 10 c9State 0 0
        (.timeLock ⟨.smartTransfer, 5, 20, 0, 3000, 40⟩) = .error "insufficient balance" ↔
      c9State.balances 10 SystemAssetID <
        0 * 0 + wEnv.getFsnCallFee (FsnCall.timeLock ⟨.smartTransfer, 5, 20, 0, 3000, 40⟩).tag
          + 25) :=
  ⟨by decide,
   (claim_C9_amended wEnv 100 500 1000 false 10 c9State 0 0
      (.timeLock ⟨.smartTransfer, 5, 20, 0, 3000, 40⟩) 25 (by decide)).1⟩
